import Mathlib

/-
Verification of the arxiv_daily pipeline (arxiv_daily.py and analyze_papers.py).

Python strings are modelled as lists of characters (`PyStr`), files as lists
of lines (each `f.write` chunk contributes the lines delimited by its
embedded newline characters, exactly as `readlines` recovers them), calendar
dates as proleptic-Gregorian dates with CPython's ordinal conversion, and
fallible code (KeyError, IndexError, ZeroDivisionError) as `Except String`.
-/

set_option maxHeartbeats 1000000

/-- Python strings, modelled as lists of characters. -/
abbrev PyStr := List Char

/-- The ASCII whitespace characters removed by Python str.strip. -/
def isWS (c : Char) : Bool :=
  c = ' ' || c = '\t' || c = '\n' || c = '\r' || c = '\x0b' || c = '\x0c'

/-- Python str.lstrip. -/
def lstrip (s : PyStr) : PyStr := s.dropWhile isWS

/-- Python str.rstrip. -/
def rstrip (s : PyStr) : PyStr := (s.reverse.dropWhile isWS).reverse

/-- Python str.strip. -/
def strip (s : PyStr) : PyStr := lstrip (rstrip s)

/-- Python str.split(sep) for a single-character separator. -/
def splitChar (sep : Char) : PyStr → List PyStr
  | [] => [[]]
  | c :: rest =>
    if c = sep then [] :: splitChar sep rest
    else (splitChar sep rest).modifyHead (c :: ·)

/-- Python str.find(c): index of the first occurrence, -1 when absent. -/
def pyFind (c : Char) : PyStr → Int
  | [] => -1
  | x :: xs =>
    if x = c then 0
    else if pyFind c xs < 0 then -1 else pyFind c xs + 1

/-- Python slice s[i:j] (step 1), with negative-index and clamping semantics. -/
def pySlice (s : PyStr) (i j : Int) : PyStr :=
  let n : Int := s.length
  let norm : Int → Nat := fun k => (if k < 0 then max (n + k) 0 else min k n).toNat
  (s.take (norm j)).drop (norm i)

/-- Python str.lower (ASCII data only in this pipeline). -/
def lower (s : PyStr) : PyStr := s.map Char.toLower

/-- Decimal digit character. -/
def digit (n : Nat) : Char := Char.ofNat (48 + n)

/-- Digit-expansion helper, structurally recursive on a fuel bound. -/
def natDigitsAux : Nat → Nat → PyStr
  | 0, _ => []
  | fuel + 1, n => if n < 10 then [digit n] else natDigitsAux fuel (n / 10) ++ [digit (n % 10)]

/-- Decimal representation of a natural number, as Python str(n): n itself
bounds the number of digits, so the fuel never runs out. -/
def natDigits (n : Nat) : PyStr := natDigitsAux (n + 1) n

/-- Zero-padded decimal of width w. -/
def padNat (w n : Nat) : PyStr :=
  List.replicate (w - (natDigits n).length) '0' ++ natDigits n

/-- Calendar date, as Python datetime.date (proleptic Gregorian). -/
structure Date where
  year : Nat
  month : Nat
  day : Nat
deriving DecidableEq

/-- Gregorian leap-year test (CPython _is_leap). -/
def isLeap (y : Nat) : Bool :=
  (y % 4 == 0) && ((y % 100 != 0) || (y % 400 == 0))

/-- Number of days in month m of year y (CPython _DAYS_IN_MONTH plus leap fix). -/
def daysInMonth (y m : Nat) : Nat :=
  if m = 2 then (if isLeap y then 29 else 28)
  else if m = 4 || m = 6 || m = 9 || m = 11 then 30
  else 31

/-- Days in year y that precede the start of month m (CPython _days_before_month). -/
def daysBeforeMonth (y m : Nat) : Nat :=
  (List.range' 1 (m - 1)).foldl (fun acc k => acc + daysInMonth y k) 0

/-- Days before January 1st of year y (CPython _days_before_year). -/
def daysBeforeYear (y : Nat) : Nat :=
  (y - 1) * 365 + (y - 1) / 4 - (y - 1) / 100 + (y - 1) / 400

/-- Proleptic Gregorian ordinal of a date, day 1 = 0001-01-01 (CPython _ymd2ord). -/
def toOrd (d : Date) : Nat :=
  daysBeforeYear d.year + daysBeforeMonth d.year d.month + d.day

/-- Date of a proleptic Gregorian ordinal (CPython _ord2ymd). -/
def fromOrd (ord : Nat) : Date :=
  let n0 := ord - 1
  let n400 := n0 / 146097
  let r400 := n0 % 146097
  let n100 := r400 / 36524
  let r100 := r400 % 36524
  let n4 := r100 / 1461
  let r4 := r100 % 1461
  let n1 := r4 / 365
  let n := r4 % 365
  let year := n400 * 400 + 1 + n100 * 100 + n4 * 4 + n1
  if n1 = 4 || n100 = 4 then
    { year := year - 1, month := 12, day := 31 }
  else
    let m0 := (n + 50) >>> 5
    let p0 := daysBeforeMonth year m0
    let month := if p0 > n then m0 - 1 else m0
    let preceding := if p0 > n then p0 - daysInMonth year (m0 - 1) else p0
    { year := year, month := month, day := n - preceding + 1 }

/-- Subtraction date - timedelta(days = k), as datetime.date arithmetic. -/
def subDays (d : Date) (k : Nat) : Date := fromOrd (toOrd d - k)

/-- Python date comparison a <= b (lexicographic on y-m-d, i.e. ordinal order). -/
def dateLe (a b : Date) : Bool := decide (toOrd a ≤ toOrd b)

/-- str(date): ISO YYYY-MM-DD. -/
def dateStr (d : Date) : PyStr :=
  padNat 4 d.year ++ ['-'] ++ padNat 2 d.month ++ ['-'] ++ padNat 2 d.day

/-! ### Digest Parser (analyze_papers.load_papers) -/

/-- Fixed line markers recognized by load_papers (also emitted by get_cv_papers). -/
def mPaper : PyStr := "## 📄 Paper #".toList

def mTitle : PyStr := "### ".toList

def mDate : PyStr := "**Date (UTC):**".toList

def mAuthors : PyStr := "**Authors:**".toList

def mAbstract : PyStr := "**Abstract:**".toList

def mLinks : PyStr := "**Links:**".toList

def mArxiv : PyStr := "- [arXiv Page]".toList

def mPdf : PyStr := "- [PDF]".toList

def mHr : PyStr := "---".toList

/-- The current-paper dict built by load_papers; an absent key is none. -/
structure ParsedPaper where
  number : Option PyStr := none
  title : Option PyStr := none
  date : Option PyStr := none
  authors : Option PyStr := none
  abstract : Option PyStr := none
  arxiv_url : Option PyStr := none
  pdf_url : Option PyStr := none
deriving DecidableEq

/-- Truthiness of the current_paper dict: it is falsy iff no key was set. -/
def ParsedPaper.isBlank (p : ParsedPaper) : Bool :=
  p.number.isNone && p.title.isNone && p.date.isNone && p.authors.isNone &&
  p.abstract.isNone && p.arxiv_url.isNone && p.pdf_url.isNone

/-- The slice line[line.find('(')+1 : line.find(')')] used for link URLs. -/
def extractParen (l : PyStr) : PyStr := pySlice l (pyFind '(' l + 1) (pyFind ')' l)

/-- One iteration of the load_papers line loop (line is stripped on entry). -/
def parseStep (acc : List ParsedPaper) (cur : ParsedPaper) (line0 : PyStr) :
    Except String (List ParsedPaper × ParsedPaper) :=
  let line := strip line0
  if mPaper.isPrefixOf line then
    let acc := if cur.isBlank then acc else acc ++ [cur]
    match (splitChar '#' line).get? 1 with
    | some s => .ok (acc, { number := some (strip s) })
    | none => .error "IndexError"
  else if mTitle.isPrefixOf line then
    .ok (acc, { cur with title := some (strip (line.drop 4)) })
  else if mDate.isPrefixOf line then
    .ok (acc, { cur with date := some (strip (line.drop 15)) })
  else if mAuthors.isPrefixOf line then
    .ok (acc, { cur with authors := some (strip (line.drop 12)) })
  else if mAbstract.isPrefixOf line then
    .ok (acc, { cur with abstract := some [] })
  else if mLinks.isPrefixOf line then
    match cur.abstract with
    | some a => .ok (acc, { cur with abstract := some (strip a) })
    | none => .error "KeyError"
  else if mArxiv.isPrefixOf line then
    .ok (acc, { cur with arxiv_url := some (extractParen line) })
  else if mPdf.isPrefixOf line then
    .ok (acc, { cur with pdf_url := some (extractParen line) })
  else
    match cur.abstract with
    | some a =>
      if line.isEmpty || mHr.isPrefixOf line then .ok (acc, cur)
      else .ok (acc, { cur with abstract := some (a ++ line ++ [' ']) })
    | none => .ok (acc, cur)

/-- The load_papers loop over the file's lines. -/
def runLines (st : List ParsedPaper × ParsedPaper) :
    List PyStr → Except String (List ParsedPaper × ParsedPaper)
  | [] => .ok st
  | l :: ls =>
    match parseStep st.1 st.2 l with
    | .ok st2 => runLines st2 ls
    | .error e => .error e

/-- analyze_papers.load_papers on the lines of a digest file. -/
def load_papers (lines : List PyStr) : Except String (List ParsedPaper) :=
  match runLines ([], {}) lines with
  | .ok (ps, cur) => .ok (if cur.isBlank then ps else ps ++ [cur])
  | .error e => .error e

/-! ### Relevance Classifier response parsing (analyze_papers.parse_ai_response) -/

/-- Labels recognized in the classifier response. -/
def rRelevant : PyStr := "RELEVANT:".toList

def rReason : PyStr := "REASON:".toList

def rTopics : PyStr := "TOPICS:".toList

def rMain : PyStr := "MAIN_CONTRIBUTION:".toList

/-- The result dict of parse_ai_response. -/
structure AIResult where
  relevant : Bool := false
  reason : PyStr := []
  topics : List PyStr := []
  main_contribution : PyStr := []
deriving DecidableEq

/-- One iteration of the parse_ai_response line loop. -/
def aiStep (r : AIResult) (line0 : PyStr) : AIResult :=
  let line := strip line0
  if rRelevant.isPrefixOf line then
    { r with relevant := lower (strip (line.drop 9)) == "yes".toList }
  else if rReason.isPrefixOf line then
    { r with reason := strip (line.drop 7) }
  else if rTopics.isPrefixOf line then
    let ts := strip (line.drop 7)
    if ts ≠ [] then { r with topics := (splitChar ',' ts).map strip } else r
  else if rMain.isPrefixOf line then
    { r with main_contribution := strip (line.drop 18) }
  else r

/-- analyze_papers.parse_ai_response. -/
def parse_ai_response (resp : PyStr) : AIResult :=
  (splitChar '\n' (strip resp)).foldl aiStep {}

/-! ### Relevance Classifier loop (analyze_papers.analyze_papers) -/

/-- Python "', '.join(...)". -/
def joinComma (ts : List PyStr) : PyStr := List.intercalate ", ".toList ts

/-- An ASCII single quote, kept out of string literals. -/
def sqc : Char := '\''

/-- The fixed prompt text built for one paper (the f-string in analyze_papers). -/
def promptOf (topics : List PyStr) (title abstract : PyStr) : PyStr :=
  "Given the following research topics:\n".toList ++ joinComma topics ++
  "\n\nAnd this paper:\nTitle: ".toList ++ title ++
  "\nAbstract: ".toList ++ abstract ++
  "\n\nAnalyze if this paper is relevant to any of the research topics and extract its main contribution. Provide your response in the following format:\n\nRELEVANT: [yes/no]\nREASON: [brief explanation of why it".toList ++
  [sqc] ++ "s relevant or not]\nTOPICS: [comma-separated list of relevant topics from the provided list]\nMAIN_CONTRIBUTION: [a concise summary of the paper".toList ++
  [sqc] ++ "s main contribution based on the abstract]\n".toList

/-- Prompt construction: dict lookups of title and abstract happen outside the
try block, so a missing key is an uncaught KeyError. -/
def buildPrompt (p : ParsedPaper) (topics : List PyStr) : Except String PyStr :=
  match p.title with
  | none => .error "KeyError"
  | some t =>
    match p.abstract with
    | none => .error "KeyError"
    | some a => .ok (promptOf topics t a)

/-- Aggregate returned by analyze_papers. -/
structure AnalysisResult where
  total_papers : Nat
  relevant_papers : List (ParsedPaper × AIResult)
  relevance_count : Nat
deriving DecidableEq

/-- The per-paper loop of analyze_papers. The completion call is modelled as an
oracle from the 1-based paper index and the prompt to a response or an error;
an oracle error is the caught-and-skipped per-paper exception. A paper that
is relevant is appended together with its verdict (the dict gets a relevance
key). -/
def analyzeGo (topics : List PyStr) (oracle : Nat → PyStr → Except String PyStr) :
    List ParsedPaper → Nat → Except String (List (ParsedPaper × AIResult))
  | [], _ => .ok []
  | p :: ps, i =>
    match buildPrompt p topics with
    | .error e => .error e
    | .ok prompt =>
      match oracle i prompt with
      | .error _ => analyzeGo topics oracle ps (i + 1)
      | .ok txt =>
        let analysis := parse_ai_response txt
        if analysis.relevant then
          match analyzeGo topics oracle ps (i + 1) with
          | .error e => .error e
          | .ok rest => .ok ((p, analysis) :: rest)
        else
          analyzeGo topics oracle ps (i + 1)

/-- analyze_papers.analyze_papers: total_papers is len(papers), taken before
the loop. -/
def analyze_papers (papers : List ParsedPaper) (research_topics : List PyStr)
    (oracle : Nat → PyStr → Except String PyStr) : Except String AnalysisResult :=
  match analyzeGo research_topics oracle papers 1 with
  | .error e => .error e
  | .ok rel => .ok { total_papers := papers.length, relevant_papers := rel,
                     relevance_count := rel.length }

/-! ### Analysis Renderer (analyze_papers.generate_report) -/

/-- Digit test for the filename pattern. -/
def isDigitCh (c : Char) : Bool := 48 ≤ c.toNat && c.toNat ≤ 57

/-- Shape of a YYYY-MM-DD group in the output-filename pattern. -/
def dateShaped (l : PyStr) : Bool :=
  match l with
  | [a, b, c, d, e, f, g, h, i, j] =>
    isDigitCh a && isDigitCh b && isDigitCh c && isDigitCh d && (e = '-') &&
    isDigitCh f && isDigitCh g && (h = '-') && isDigitCh i && isDigitCh j
  | _ => false

/-- The re.search on the output filename in generate_report. The pattern is
anchored at the end and has fixed length 43, so it matches exactly when the
name ends with analyzed_papers_, a date, _to_, a date, and .md. -/
def extractDateRange (out : PyStr) : Option (PyStr × PyStr) :=
  let tail := out.drop (out.length - 43)
  if tail.take 16 = "analyzed_papers_".toList then
    let d1 := (tail.drop 16).take 10
    let mid := (tail.drop 26).take 4
    let d2 := (tail.drop 30).take 10
    let ext := tail.drop 40
    if dateShaped d1 && (mid = "_to_".toList) && dateShaped d2 && (ext = ".md".toList) then
      some (d1, d2)
    else none
  else none

/-- The date-range string written in the report header. -/
def dateRangeStr (out : PyStr) : PyStr :=
  match extractDateRange out with
  | some (d1, d2) => d1 ++ " to ".toList ++ d2
  | none => "unknown date range".toList

/-- Relevance rate in tenths of a percent, rounded half-to-even as the one
decimal of the f-string format; the unguarded division raises
ZeroDivisionError when total = 0. (Python computes in double-precision
floats; the quotient is modelled exactly.) -/
def ratePermille (rc total : Nat) : Except String Nat :=
  if total = 0 then .error "ZeroDivisionError"
  else
    let n := rc * 1000
    let q := n / total
    let r := n % total
    .ok (if 2 * r > total || (2 * r == total && q % 2 == 1) then q + 1 else q)

/-- Rendering of the one-decimal percentage. -/
def rateStr (x : Nat) : PyStr := natDigits (x / 10) ++ ['.', digit (x % 10), '%']

/-- URL-friendly anchor for a topic: lowercase, spaces to dashes. -/
def anchorOf (t : PyStr) : PyStr := t.map (fun c => if c = ' ' then '-' else c.toLower)

/-- The group topic_papers[topic]: the nested loop appends the paper once per
occurrence of the topic in its verdict topic list (a duplicated topic appends
the paper twice), papers in relevant order with duplicates adjacent; the
occurrence count of the topic is its countP in the list. A dict key exists
iff this list is nonempty. -/
def topicPapers (rel : List (ParsedPaper × AIResult)) (t : PyStr) :
    List (ParsedPaper × AIResult) :=
  rel.flatMap (fun pr => List.replicate (pr.2.topics.countP (fun x => x = t)) pr)

/-- A row of the Topic Distribution table. -/
def distRow (t : PyStr) (n : Nat) : PyStr :=
  "| [".toList ++ t ++ "](#".toList ++ anchorOf t ++ ") | ".toList ++ natDigits n ++ " |".toList

/-- All rows of the Topic Distribution table, one per configured topic. -/
def distRows (rel : List (ParsedPaper × AIResult)) (topics : List PyStr) : List PyStr :=
  topics.map (fun t => distRow t (topicPapers rel t).length)

/-- Dict lookup paper[k]: a missing key raises KeyError. -/
def pyKey (v : Option PyStr) : Except String PyStr :=
  match v with
  | some s => .ok s
  | none => .error "KeyError"

/-- The full detail block written for one paper inside a topic section. -/
def detailBlock (pr : ParsedPaper × AIResult) : Except String (List PyStr) := do
  let t ← pyKey pr.1.title
  let d ← pyKey pr.1.date
  let au ← pyKey pr.1.authors
  let ab ← pyKey pr.1.abstract
  let aurl ← pyKey pr.1.arxiv_url
  let purl ← pyKey pr.1.pdf_url
  .ok (["#### ".toList ++ t, [],
        "**Date:** ".toList ++ d, [],
        "**Authors:** ".toList ++ au, [],
        "**Main Contribution:**".toList] ++
       splitChar '\n' pr.2.main_contribution ++ [[]] ++
       ["**Relevant Topics:**".toList] ++
       pr.2.topics.map (fun tp => "- ".toList ++ tp) ++ [[]] ++
       ["**Reason for Relevance:**".toList] ++
       splitChar '\n' pr.2.reason ++ [[]] ++
       ["**Abstract:**".toList] ++
       splitChar '\n' ab ++ [[]] ++
       [mLinks,
        mArxiv ++ ('(' :: (aurl ++ [')'])),
        mPdf ++ ('(' :: (purl ++ [')'])),
        [], mHr, []])

/-- Concatenated detail blocks of a list of papers. -/
def blocksFor : List (ParsedPaper × AIResult) → Except String (List PyStr)
  | [] => .ok []
  | pr :: rest => do
    let b ← detailBlock pr
    let bs ← blocksFor rest
    .ok (b ++ bs)

/-- The section written for one topic that has at least one paper. -/
def sectionFor (rel : List (ParsedPaper × AIResult)) (t : PyStr) :
    Except String (List PyStr) := do
  let bs ← blocksFor (topicPapers rel t)
  .ok (["### <a id=".toList ++ [sqc] ++ anchorOf t ++ [sqc] ++ "></a>".toList ++ t, [],
        "*Found ".toList ++ natDigits (topicPapers rel t).length ++ " relevant papers*".toList, []] ++ bs)

/-- The configured topics that get a detail section: exactly those present as
keys of topic_papers, i.e. with a nonempty paper list. -/
def sectionTopics (rel : List (ParsedPaper × AIResult)) (topics : List PyStr) : List PyStr :=
  topics.filter (fun t => !(topicPapers rel t).isEmpty)

/-- Concatenated sections of the given topics. -/
def bodyFor (rel : List (ParsedPaper × AIResult)) : List PyStr → Except String (List PyStr)
  | [] => .ok []
  | t :: ts => do
    let s ← sectionFor rel t
    let rest ← bodyFor rel ts
    .ok (s ++ rest)

/-- analyze_papers.generate_report, as the lines of the written report.
The datetime.now timestamp is passed in as now. -/
def generate_report (analysis : AnalysisResult) (research_topics : List PyStr)
    (output_file now : PyStr) : Except String (List PyStr) := do
  let rate ← ratePermille analysis.relevance_count analysis.total_papers
  let body ← bodyFor analysis.relevant_papers (sectionTopics analysis.relevant_papers research_topics)
  .ok (["# AI Analysis of Computer Vision Papers".toList, [],
        "*Date Range: ".toList ++ dateRangeStr output_file ++ ['*'],
        "*Generated on ".toList ++ now ++ ['*'], [],
        "## Research Topics".toList, []] ++
       research_topics.map (fun t => "- ".toList ++ t) ++ [[]] ++
       ["## Summary".toList, [],
        "- Total papers analyzed: ".toList ++ natDigits analysis.total_papers,
        "- Relevant papers found: ".toList ++ natDigits analysis.relevance_count,
        "- Relevance rate: ".toList ++ rateStr rate, [],
        "## Topic Distribution".toList, [],
        "| Topic | Number of Papers |".toList,
        "|-------|-----------------|".toList] ++
       distRows analysis.relevant_papers research_topics ++
       [[],
        "> Note: Papers may appear under multiple topics if they are relevant to more than one research area.".toList, [],
        "## Papers by Topic".toList, []] ++
       body)

/-! ### Default output name and CLI path (analyze_papers.get_output_filename, main) -/

/-- Python str.split(sep) for a multi-character separator, helper. -/
def splitSubAux (c0 : Char) (cs : PyStr) (cur : PyStr) : PyStr → List PyStr
  | [] => [cur.reverse]
  | x :: xs =>
    if (c0 :: cs).isPrefixOf (x :: xs) then
      cur.reverse :: splitSubAux c0 cs [] ((x :: xs).drop (cs.length + 1))
    else
      splitSubAux c0 cs (x :: cur) xs
termination_by l => l.length
decreasing_by
  all_goals simp [List.length_drop]
  omega

/-- Python str.split(sep) for a nonempty separator. -/
def splitSub (sep s : PyStr) : List PyStr :=
  match sep with
  | [] => [s]
  | c :: cs => splitSubAux c cs [] s

/-- The filename marker split on by analyze_papers.get_output_filename. -/
def cvMarker : PyStr := "cv_papers_".toList

/-- analyze_papers.get_output_filename: indexing [1] into the split raises an
uncaught IndexError when the input name has no cv_papers_ inside. -/
def get_output_filename (input_file : PyStr) : Except String PyStr :=
  match (splitSub cvMarker input_file).get? 1 with
  | some dr => .ok ("papers/analyzed_papers_".toList ++ dr)
  | none => .error "IndexError"

/-- The analysis CLI path with --input given and --output omitted: the default
output name is derived first, then papers are loaded, classified, and the
report rendered. (Config loading is assumed valid and absorbed in oracle.) -/
def main_analysis (input_file : PyStr) (file_lines : List PyStr)
    (research_topics : List PyStr) (oracle : Nat → PyStr → Except String PyStr)
    (now : PyStr) : Except String (List PyStr) := do
  let out ← get_output_filename input_file
  let papers ← load_papers file_lines
  let analysis ← analyze_papers papers research_topics oracle
  generate_report analysis research_topics out now

/-! ### Paper Fetcher and Digest Renderer (arxiv_daily.get_cv_papers) -/

/-- One result from the arXiv search, with its UTC calendar date. -/
structure ArxivResult where
  published : Date
  title : PyStr
  authors : List PyStr
  summary : PyStr
  entry_id : PyStr
  pdf_url : PyStr
deriving DecidableEq

/-- The paper dict collected by get_cv_papers. -/
structure FPaper where
  date : Date
  title : PyStr
  authors : List PyStr
  summary : PyStr
  url : PyStr
  pdf_url : PyStr
deriving DecidableEq

/-- Field selection from a search result into the papers list. -/
def toFPaper (r : ArxivResult) : FPaper :=
  { date := r.published, title := r.title, authors := r.authors,
    summary := r.summary, url := r.entry_id, pdf_url := r.pdf_url }

/-- Date-window test start_date <= submission_date <= latest_date. -/
def inWindow (s l : Date) (r : ArxivResult) : Bool :=
  dateLe s r.published && dateLe r.published l

/-- The papers retained by the window filter, in result order. -/
def filteredPapers (results : List ArxivResult) (s l : Date) : List FPaper :=
  (results.filter (inWindow s l)).map toFPaper

/-- papers.sort(key=date, reverse=True): stable sort, most recent first.
Python uses a stable sort; a stable insertion sort has the same result. -/
def sortByDateDesc (ps : List FPaper) : List FPaper :=
  List.insertionSort (fun a b => dateLe b.date a.date = true) ps

/-- The distinct submission dates (daily_counts keys), listed descending. -/
def dailyDates (ps : List FPaper) : List Date :=
  List.insertionSort (fun a b => dateLe b a = true) ((ps.map (fun p => p.date)).dedup)

/-- daily_counts[d]: papers in the window with that date. -/
def dateCount (ps : List FPaper) (d : Date) : Nat :=
  (ps.filter (fun p => p.date == d)).length

/-- A row of the daily count table. -/
def countRow (d : Date) (n : Nat) : PyStr :=
  "| ".toList ++ dateStr d ++ " | ".toList ++ natDigits n ++ " |".toList

/-- The digest header, window line, and daily count table. -/
def fetchHeader (past_days max_results : Nat) (s l : Date) (ps : List FPaper) : List PyStr :=
  ["# Computer Vision Papers from arXiv".toList, [],
   "*Last ".toList ++ natDigits past_days ++ " Days (".toList ++ dateStr s ++
     " to ".toList ++ dateStr l ++ ")*".toList, [],
   "*Maximum results: ".toList ++ natDigits max_results ++ ['*'], [],
   "*Note: All dates are in UTC (Coordinated Universal Time)*".toList, [],
   mHr, [],
   "## 📊 Daily Paper Count Summary".toList, [],
   "| Date (UTC) | Number of Papers |".toList,
   "|------------|-----------------|".toList] ++
  (dailyDates ps).map (fun d => countRow d (dateCount ps d)) ++
  [[], mHr, []]

/-- The per-paper section of the digest, papers numbered from 1. -/
def paperLines (i : Nat) (p : FPaper) : List PyStr :=
  [mPaper ++ natDigits i, [],
   mTitle ++ p.title, [],
   mDate ++ (' ' :: dateStr p.date), [],
   mAuthors ++ (' ' :: joinComma p.authors), [],
   mAbstract, []] ++
  splitChar '\n' p.summary ++
  [[], mLinks, [],
   mArxiv ++ ('(' :: (p.url ++ [')'])),
   mPdf ++ ('(' :: (p.pdf_url ++ [')'])),
   [], mHr, []]

/-- All per-paper sections, numbered consecutively. -/
def paperSections : Nat → List FPaper → List PyStr
  | _, [] => []
  | i, p :: rest => paperLines i p ++ paperSections (i + 1) rest

/-- arxiv_daily.get_cv_papers in latest-submission mode: the digest file lines,
or none when the search returns no results. The window end is the first
result's date; its start is that date minus past_days. -/
def get_cv_papers (past_days max_results : Nat) (results : List ArxivResult) :
    Option (List PyStr) :=
  match results.head? with
  | none => none
  | some r0 =>
    let latest := r0.published
    let start := subDays latest past_days
    let ps := filteredPapers results start latest
    some (fetchHeader past_days max_results start latest ps ++
          paperSections 1 (sortByDateDesc ps))

/-! ### Round-trip vocabulary -/

/-- A string with no leading and no trailing Python whitespace. -/
def Trimmed (s : PyStr) : Prop := lstrip s = s ∧ rstrip s = s

/-- Whitespace normalization performed by the parser on a multi-line abstract:
lines are stripped, empty ones dropped, and the rest joined by single spaces. -/
def normAbstract (s : PyStr) : PyStr :=
  List.intercalate [' '] (((splitChar '\n' s).map strip).filter (fun t => t ≠ []))

/-- The markers that drive the load_papers line dispatch. -/
def allMarkers : List PyStr :=
  [mPaper, mTitle, mDate, mAuthors, mAbstract, mLinks, mArxiv, mPdf, mHr]

/-- An abstract line that collides with no section marker once stripped. -/
def SummaryLineOK (l : PyStr) : Prop :=
  ∀ m ∈ allMarkers, m.isPrefixOf (strip l) = false

/-- The eight markers of the parser's dispatch chain (all but the horizontal
rule, which only guards abstract accumulation). -/
def dispatchMarkers : List PyStr :=
  [mPaper, mTitle, mDate, mAuthors, mAbstract, mLinks, mArxiv, mPdf]

/-- The abstract accumulator: each line followed by a single space. -/
def joinSp (ts : List PyStr) : PyStr := (ts.map (fun t => t ++ [' '])).flatten

/-- Well-behaved rendered paper fields: no abstract line collides with a
section marker, link URLs contain no closing parenthesis, and single-line
fields carry no newline and no outer whitespace. -/
def WBPaper (p : FPaper) : Prop :=
  Trimmed p.title ∧ p.title ≠ [] ∧ '\n' ∉ p.title ∧
  Trimmed (joinComma p.authors) ∧ joinComma p.authors ≠ [] ∧
  '\n' ∉ joinComma p.authors ∧
  ')' ∉ p.url ∧ '\n' ∉ p.url ∧
  ')' ∉ p.pdf_url ∧ '\n' ∉ p.pdf_url ∧
  ∀ l ∈ splitChar '\n' p.summary, SummaryLineOK l

/-- Well-behavedness of a search result: its rendered paper is well-behaved. -/
def WellBehaved (r : ArxivResult) : Prop := WBPaper (toFPaper r)

/-- The record the parser is expected to reconstruct for a rendered paper. -/
def expectedRecord (p : FPaper) : ParsedPaper :=
  { number := some [], title := some p.title, date := some (dateStr p.date),
    authors := some (joinComma p.authors), abstract := some (normAbstract p.summary),
    arxiv_url := some p.url, pdf_url := some p.pdf_url }

/-! ### Concrete inputs used by witnesses and counterexamples -/

/-- A well-behaved search result. -/
def exResult1 : ArxivResult :=
  { published := ⟨2024, 1, 10⟩, title := "A Study".toList,
    authors := ["Ann Lee".toList, "Bo Chen".toList],
    summary := "First line.\nSecond line.".toList,
    entry_id := "http0/abs/1".toList, pdf_url := "http0/pdf/1".toList }

/-- A second well-behaved search result, two days older. -/
def exResult2 : ArxivResult :=
  { published := ⟨2024, 1, 8⟩, title := "Other Work".toList,
    authors := ["Cy Dee".toList],
    summary := "Only line.".toList,
    entry_id := "http0/abs/2".toList, pdf_url := "http0/pdf/2".toList }

/-- A complete parsed paper. -/
def exPaperA : ParsedPaper :=
  { number := some [], title := some "Alpha".toList, date := some "2024-01-10".toList,
    authors := some "Ann".toList, abstract := some "About one thing.".toList,
    arxiv_url := some "u1".toList, pdf_url := some "v1".toList }

/-- Another complete parsed paper. -/
def exPaperB : ParsedPaper :=
  { number := some [], title := some "Beta".toList, date := some "2024-01-08".toList,
    authors := some "Bo".toList, abstract := some "About another thing.".toList,
    arxiv_url := some "u2".toList, pdf_url := some "v2".toList }

/-- A verdict whose topic list names the same topic twice. -/
def exVerdictDup : AIResult :=
  { relevant := true, reason := "fits".toList,
    topics := ["seg".toList, "seg".toList], main_contribution := "mc".toList }

/-- A verdict matching two topics. -/
def exVerdict2 : AIResult :=
  { relevant := true, reason := "fits".toList,
    topics := ["seg".toList, "det".toList], main_contribution := "mc".toList }

/-- An oracle whose completion call always raises. -/
def exOracleErr : Nat → PyStr → Except String PyStr := fun _ _ => .error "APIError"

/-- An oracle that raises on the first paper and returns a relevant verdict on
every later one. -/
def exOracle2 : Nat → PyStr → Except String PyStr := fun i _ =>
  if i = 1 then .error "APIError"
  else .ok "RELEVANT: yes\nREASON: fits\nTOPICS: seg\nMAIN_CONTRIBUTION: mc".toList

/-- The topic list used by concrete report examples. -/
def exTopics : List PyStr := ["seg".toList, "det".toList, "gan".toList]

/-- A classifier response whose two RELEVANT lines disagree. -/
def exRespConflict : PyStr := "RELEVANT: yes\nRELEVANT: no".toList

/-- A straightforward relevant classifier response. -/
def exRespYes : PyStr :=
  "RELEVANT: yes\nREASON: fits\nTOPICS: seg, det\nMAIN_CONTRIBUTION: mc".toList

/-- A classifier response with a TOPICS line only. -/
def exRespTopics : PyStr := "TOPICS: seg, det".toList

/-! ### Basic facts about strip -/

theorem lstrip_cons_of (c : Char) (l : PyStr) (h : isWS c = false) :
    lstrip (c :: l) = c :: l := by
  simp [lstrip, List.dropWhile_cons, h]

theorem rstrip_cons_of (c : Char) (l : PyStr) (h : isWS c = false) :
    rstrip (c :: l) = c :: rstrip l := by
  unfold rstrip
  rw [List.reverse_cons, List.dropWhile_append]
  by_cases h2 : (List.dropWhile isWS l.reverse).isEmpty
  · rw [List.isEmpty_iff] at h2
    simp [h2, List.dropWhile_cons, h]
  · simp [h2]

theorem strip_cons_of (c : Char) (l : PyStr) (h : isWS c = false) :
    strip (c :: l) = c :: rstrip l := by
  rw [strip, rstrip_cons_of c l h, lstrip_cons_of c (rstrip l) h]

theorem rstrip_append (a b : PyStr) (h : rstrip b ≠ []) :
    rstrip (a ++ b) = a ++ rstrip b := by
  unfold rstrip at h ⊢
  rw [List.reverse_append, List.dropWhile_append]
  have h3 : (List.dropWhile isWS b.reverse).isEmpty = false := by
    cases h4 : List.dropWhile isWS b.reverse with
    | nil => exact absurd (by simp [h4]) h
    | cons x xs => simp [h4]
  simp [h3]

theorem lstrip_eq_self_of_head (l : PyStr) (h : ∀ c, l.head? = some c → isWS c = false) :
    lstrip l = l := by
  cases l with
  | nil => rfl
  | cons c t => exact lstrip_cons_of c t (h c rfl)

theorem rstrip_eq_self_of_getLast (l : PyStr) (h : ∀ c, l.getLast? = some c → isWS c = false) :
    rstrip l = l := by
  unfold rstrip
  cases h4 : l.reverse with
  | nil =>
    have : l = [] := by simpa using congrArg List.reverse h4
    simp [this]
  | cons x xs =>
    have hx : isWS x = false := by
      apply h
      rw [← List.head?_reverse, h4]
      rfl
    have hl : (x :: xs).reverse = l := by
      rw [← h4, List.reverse_reverse]
    rw [List.dropWhile_cons, hx]
    simpa using hl

theorem rstrip_nonws (l : PyStr) (h : ∀ c ∈ l, isWS c = false) : rstrip l = l :=
  rstrip_eq_self_of_getLast l fun c hc => h c (List.mem_of_mem_getLast? hc)

theorem lstrip_nonws (l : PyStr) (h : ∀ c ∈ l, isWS c = false) : lstrip l = l :=
  lstrip_eq_self_of_head l fun c hc => h c (List.mem_of_mem_head? hc)

theorem strip_nonws (l : PyStr) (h : ∀ c ∈ l, isWS c = false) : strip l = l := by
  rw [strip, rstrip_nonws l h, lstrip_nonws l h]

theorem Trimmed.strip_eq (s : PyStr) (h : Trimmed s) : strip s = s := by
  rw [strip, h.2, h.1]

/-! ### Character-class facts for rendered text -/

theorem isWS_digit (k : Nat) (h : k < 10) : isWS (digit k) = false := by
  interval_cases k <;> decide

theorem natDigits_ne_nil (n : Nat) : natDigits n ≠ [] := by
  rw [natDigits, natDigitsAux]
  split <;> simp

theorem natDigitsAux_nonws (fuel : Nat) :
    ∀ n, ∀ c ∈ natDigitsAux fuel n, isWS c = false := by
  induction fuel with
  | zero => intro n c hc; cases hc
  | succ fuel ih =>
    intro n c hc
    rw [natDigitsAux] at hc
    by_cases h : n < 10
    · rw [if_pos h, List.mem_singleton] at hc
      subst hc
      exact isWS_digit n h
    · rw [if_neg h, List.mem_append] at hc
      rcases hc with hc | hc
      · exact ih (n / 10) c hc
      · rw [List.mem_singleton] at hc
        subst hc
        exact isWS_digit _ (Nat.mod_lt _ (by omega))

theorem natDigits_nonws (n : Nat) : ∀ c ∈ natDigits n, isWS c = false :=
  natDigitsAux_nonws (n + 1) n

theorem dateStr_nonws (d : Date) : ∀ c ∈ dateStr d, isWS c = false := by
  intro c hc
  have h2 : c = '0' ∨ c = '-' ∨
      c ∈ natDigits d.year ∨ c ∈ natDigits d.month ∨ c ∈ natDigits d.day := by
    simp only [dateStr, padNat, List.mem_append, List.mem_singleton,
      List.mem_replicate] at hc
    tauto
  rcases h2 with rfl | rfl | h | h | h
  · decide
  · decide
  all_goals exact natDigits_nonws _ c h

theorem dateStr_ne_nil (d : Date) : dateStr d ≠ [] := by
  unfold dateStr
  simp

theorem rstrip_natDigits (n : Nat) : rstrip (natDigits n) = natDigits n :=
  rstrip_nonws _ (natDigits_nonws n)

theorem rstrip_dateStr (d : Date) : rstrip (dateStr d) = dateStr d :=
  rstrip_nonws _ (dateStr_nonws d)

/-! ### Marker normal forms -/

theorem mPaper_cons (t : PyStr) : mPaper ++ t = '#' :: '#' :: (" 📄 Paper #".toList ++ t) := rfl

theorem splitChar_hash_hash (t : PyStr) :
    (splitChar '#' ('#' :: '#' :: t)).get? 1 = some [] := by
  simp [splitChar]

/-! ### The paper header line (claim C9) -/

theorem mPaper_isPrefix (t : PyStr) : mPaper.isPrefixOf (mPaper ++ t) = true := by
  rw [List.isPrefixOf_iff_prefix]
  exact List.prefix_append _ _

theorem strip_paperHeader (i : Nat) :
    strip (mPaper ++ natDigits i) = mPaper ++ natDigits i := by
  have hnd : rstrip (natDigits i) = natDigits i := rstrip_natDigits i
  rw [strip, rstrip_append _ _ (by rw [hnd]; exact natDigits_ne_nil i), hnd,
    mPaper_cons, lstrip_cons_of _ _ (by decide)]

/-- Stepping the parser over a rendered paper header line: the previous record
is flushed and the new record's number is the text between the first two hash
characters, the empty string. -/
theorem parseStep_paperHeader (i : Nat) (acc : List ParsedPaper) (cur : ParsedPaper) :
    parseStep acc cur (mPaper ++ natDigits i) =
      .ok ((if cur.isBlank then acc else acc ++ [cur]), { number := some [] }) := by
  unfold parseStep
  rw [strip_paperHeader i]
  simp only [mPaper_isPrefix, if_true]
  rw [mPaper_cons, splitChar_hash_hash]
  rfl

/-- Claim C9: on a rendered paper header line, the parser starts a fresh record
whose number field is the text between the first two hash characters: the
empty string, never the ordinal. -/
theorem paper_header_number_empty (i : Nat) (acc : List ParsedPaper) (cur : ParsedPaper) :
    parseStep acc cur (mPaper ++ natDigits i) =
      .ok ((if cur.isBlank then acc else acc ++ [cur]), { number := some [] }) :=
  parseStep_paperHeader i acc cur

/-! ### Default output-name derivation (claim C10) -/

theorem splitSubAux_no_occ (c0 : Char) (cs : PyStr) :
    ∀ (s cur : PyStr), ¬ ((c0 :: cs) <:+: s) →
      splitSubAux c0 cs cur s = [cur.reverse ++ s] := by
  intro s
  induction s with
  | nil =>
    intro cur _
    simp [splitSubAux]
  | cons x xs ih =>
    intro cur hno
    have hpre : (c0 :: cs).isPrefixOf (x :: xs) = false := by
      by_contra hc
      rw [Bool.not_eq_false, List.isPrefixOf_iff_prefix] at hc
      exact hno hc.isInfix
    rw [splitSubAux, hpre]
    simp only [Bool.false_eq_true, if_false]
    have h2 : ¬ ((c0 :: cs) <:+: xs) := fun h => hno (List.infix_cons h)
    rw [ih (x :: cur) h2]
    simp

theorem splitSub_no_occ (s : PyStr) (hno : ¬ (cvMarker <:+: s)) :
    splitSub cvMarker s = [s] := by
  have h2 : splitSub cvMarker s = splitSubAux 'c' "v_papers_".toList [] s := rfl
  rw [h2, splitSubAux_no_occ 'c' "v_papers_".toList s [] hno]
  rfl

/-- Claim C10: with an input name not containing cv_papers_, the default-output
derivation raises an uncaught IndexError, and the CLI path with that --input
and no --output fails the same way before papers are loaded or classified. -/
theorem no_cv_marker_index_error (input_file : PyStr) (file_lines : List PyStr)
    (research_topics : List PyStr) (oracle : Nat → PyStr → Except String PyStr)
    (now : PyStr) (hno : ¬ (cvMarker <:+: input_file)) :
    get_output_filename input_file = .error "IndexError" ∧
    main_analysis input_file file_lines research_topics oracle now = .error "IndexError" := by
  have h1 : get_output_filename input_file = .error "IndexError" := by
    unfold get_output_filename
    rw [splitSub_no_occ input_file hno]
    rfl
  refine ⟨h1, ?_⟩
  unfold main_analysis
  rw [h1]
  rfl

/-- Witness for claim C10 at a concrete filename. -/
theorem no_cv_marker_index_error_witness :
    get_output_filename "papers/other.md".toList = .error "IndexError" :=
  (no_cv_marker_index_error "papers/other.md".toList [] [] exOracleErr []
    (by decide)).1

/-! ### Relevance-rate division (claim C3) -/

/-- Claim C3 (code bug): with zero analyzed papers the report generator divides
by zero instead of reporting a guarded value; the model raises
ZeroDivisionError exactly where the Python f-string divides. -/
theorem report_zero_papers_divide_error (research_topics : List PyStr)
    (output_file now : PyStr) :
    generate_report { total_papers := 0, relevant_papers := [], relevance_count := 0 }
      research_topics output_file now = .error "ZeroDivisionError" := by
  unfold generate_report ratePermille
  rfl

/-! ### Prefix discrimination helpers -/

theorem prefix_take (m l : PyStr) (k : Nat) (h : m.isPrefixOf l = true)
    (hk : k ≤ m.length) : l.take k = m.take k := by
  rw [List.isPrefixOf_iff_prefix] at h
  obtain ⟨t, ht⟩ := h
  rw [← ht, List.take_append_of_le_length hk]

theorem isPrefixOf_false_of_take (m1 m2 l : PyStr) (k : Nat)
    (h1 : m1.isPrefixOf l = true) (hk1 : k ≤ m1.length) (hk2 : k ≤ m2.length)
    (hne : m1.take k ≠ m2.take k) : m2.isPrefixOf l = false := by
  by_contra hc
  rw [Bool.not_eq_false] at hc
  exact hne ((prefix_take m1 l k h1 hk1).symm.trans (prefix_take m2 l k hc hk2))

/-! ### parse_ai_response field characterizations (claims C4, C5) -/

theorem aiStep_relevant (r : AIResult) (l : PyStr) :
    (aiStep r l).relevant =
      if rRelevant.isPrefixOf (strip l) = true then
        lower (strip ((strip l).drop 9)) == "yes".toList
      else r.relevant := by
  simp only [aiStep]
  split_ifs <;> rfl

theorem aiStep_topics (r : AIResult) (l : PyStr) :
    (aiStep r l).topics =
      if (rTopics.isPrefixOf (strip l) && !(strip ((strip l).drop 7)).isEmpty) = true then
        (splitChar ',' (strip ((strip l).drop 7))).map strip
      else r.topics := by
  by_cases hT : rTopics.isPrefixOf (strip l) = true
  · have hR : rRelevant.isPrefixOf (strip l) = false :=
      isPrefixOf_false_of_take rTopics rRelevant (strip l) 1 hT (by decide) (by decide)
        (by decide)
    have hRe : rReason.isPrefixOf (strip l) = false :=
      isPrefixOf_false_of_take rTopics rReason (strip l) 1 hT (by decide) (by decide)
        (by decide)
    simp only [aiStep, hR, hRe, hT]
    by_cases he : strip ((strip l).drop 7) = [] <;>
      simp [he, List.isEmpty_iff]
  · rw [Bool.not_eq_true] at hT
    simp only [aiStep, hT]
    split_ifs <;> simp_all

theorem foldl_relevant (ls : List PyStr) :
    ∀ r : AIResult,
      (ls.foldl aiStep r).relevant =
        ((((ls.map strip).filter (fun l => rRelevant.isPrefixOf l)).getLast?.map
          (fun l => lower (strip (l.drop 9)) == "yes".toList)).getD r.relevant) := by
  induction ls with
  | nil => intro r; rfl
  | cons l ls ih =>
    intro r
    rw [List.foldl_cons, ih]
    by_cases hp : rRelevant.isPrefixOf (strip l) = true
    · rw [List.map_cons, List.filter_cons_of_pos hp, List.getLast?_cons]
      cases hrest : (((ls.map strip).filter (fun l => rRelevant.isPrefixOf l)).getLast?) with
      | some l2 => simp [hrest]
      | none => simp [hrest, aiStep_relevant, hp]
    · rw [Bool.not_eq_true] at hp
      rw [List.map_cons, List.filter_cons_of_neg (by simp [hp])]
      rw [aiStep_relevant, hp]
      simp

theorem foldl_topics (ls : List PyStr) :
    ∀ r : AIResult,
      (ls.foldl aiStep r).topics =
        ((((ls.map strip).filter
            (fun l => rTopics.isPrefixOf l && !(strip (l.drop 7)).isEmpty)).getLast?.map
          (fun l => (splitChar ',' (strip (l.drop 7))).map strip)).getD r.topics) := by
  induction ls with
  | nil => intro r; rfl
  | cons l ls ih =>
    intro r
    rw [List.foldl_cons, ih]
    by_cases hp : (rTopics.isPrefixOf (strip l) && !(strip ((strip l).drop 7)).isEmpty) = true
    · rw [List.map_cons, List.filter_cons, if_pos hp, List.getLast?_cons]
      cases hrest : (((ls.map strip).filter
          (fun l => rTopics.isPrefixOf l && !(strip (l.drop 7)).isEmpty)).getLast?) with
      | some l2 => simp [hrest]
      | none => simp [hrest, aiStep_topics, hp]
    · rw [Bool.not_eq_true] at hp
      rw [List.map_cons, List.filter_cons, if_neg (by simp [hp])]
      rw [aiStep_topics, hp]
      simp

/-- Claim C4 (amended): relevant is decided by the last RELEVANT-prefixed line
(each such line overwrites the flag), defaulting to false when there is none;
and the topic set is empty when no TOPICS-prefixed line has a nonempty
trimmed remainder. -/
theorem parse_ai_response_fields (resp : PyStr) :
    ((parse_ai_response resp).relevant =
      ((((splitChar '\n' (strip resp)).map strip).filter
          (fun l => rRelevant.isPrefixOf l)).getLast?.map
        (fun l => lower (strip (l.drop 9)) == "yes".toList)).getD false) ∧
    ((∀ l ∈ (splitChar '\n' (strip resp)).map strip,
        rTopics.isPrefixOf l = true → strip (l.drop 7) = []) →
      (parse_ai_response resp).topics = []) := by
  constructor
  · rw [parse_ai_response, foldl_relevant]
  · intro h
    rw [parse_ai_response, foldl_topics]
    have h2 : ((splitChar '\n' (strip resp)).map strip).filter
        (fun l => rTopics.isPrefixOf l && !(strip (l.drop 7)).isEmpty) = [] := by
      rw [List.filter_eq_nil_iff]
      intro l hl
      by_cases ht : rTopics.isPrefixOf l = true
      · simp [ht, h l hl ht]
      · simp [ht]
    rw [h2]
    rfl

/-- Witness for claim C4 at concrete responses, applying the theorem. -/
theorem parse_ai_response_fields_witness :
    (parse_ai_response exRespConflict).relevant = false ∧
    (parse_ai_response "RELEVANT: maybe".toList).topics = [] := by
  constructor
  · rw [(parse_ai_response_fields exRespConflict).1]
    decide
  · exact (parse_ai_response_fields "RELEVANT: maybe".toList).2 (by decide)

/-- Counterexample for claim C4 as stated: in this response some line starts
with RELEVANT: and its trimmed, lowercased remainder is the literal yes, yet
parse_ai_response reports not relevant (the last RELEVANT line wins). -/
theorem parse_ai_response_some_yes_but_false :
    ("RELEVANT: yes".toList ∈ (splitChar '\n' (strip exRespConflict)).map strip) ∧
    rRelevant.isPrefixOf "RELEVANT: yes".toList = true ∧
    lower (strip (("RELEVANT: yes".toList).drop 9)) = "yes".toList ∧
    (parse_ai_response exRespConflict).relevant = false := by
  decide

/-- Claim C5: when the response has exactly one TOPICS-prefixed line, the topic
list is that line's trimmed remainder split on commas with each piece
trimmed, and empty when the trimmed remainder is empty. -/
theorem parse_topics_single_line (resp l : PyStr)
    (h : ((splitChar '\n' (strip resp)).map strip).filter
        (fun x => rTopics.isPrefixOf x) = [l]) :
    (parse_ai_response resp).topics =
      if strip (l.drop 7) = [] then []
      else (splitChar ',' (strip (l.drop 7))).map strip := by
  rw [parse_ai_response, foldl_topics]
  have h1 : ∀ (L : List PyStr),
      L.filter (fun x => rTopics.isPrefixOf x && !(strip (x.drop 7)).isEmpty) =
        (L.filter (fun x => rTopics.isPrefixOf x)).filter
          (fun x => !(strip (x.drop 7)).isEmpty) := by
    intro L
    rw [List.filter_filter]
    apply List.filter_congr
    intro a _
    exact Bool.and_comm _ _
  rw [h1, h]
  by_cases he : strip (l.drop 7) = []
  · simp [List.filter_cons, he]
  · have : (strip (l.drop 7)).isEmpty = false := by
      cases hc : strip (l.drop 7) with
      | nil => exact absurd hc he
      | cons x xs => simp
    simp [List.filter_cons, this, he]

/-- Witness for claim C5 at a concrete response, applying the theorem. -/
theorem parse_topics_single_line_witness :
    (parse_ai_response exRespTopics).topics = ["seg".toList, "det".toList] := by
  rw [parse_topics_single_line exRespTopics "TOPICS: seg, det".toList (by decide)]
  decide

/-! ### analyze_papers loop behaviour (claim C2) -/

theorem analyzeGo_spec (research_topics : List PyStr)
    (oracle : Nat → PyStr → Except String PyStr) :
    ∀ (papers : List ParsedPaper) (i : Nat),
      (∀ p ∈ papers, p.title.isSome ∧ p.abstract.isSome) →
      analyzeGo research_topics oracle papers i =
        .ok ((papers.enumFrom i).filterMap (fun ip =>
          match buildPrompt ip.2 research_topics with
          | .error _ => none
          | .ok pr =>
            match oracle ip.1 pr with
            | .error _ => none
            | .ok txt =>
              if (parse_ai_response txt).relevant then
                some (ip.2, parse_ai_response txt)
              else none)) := by
  intro papers
  induction papers with
  | nil => intro i _; rfl
  | cons p ps ih =>
    intro i h
    obtain ⟨ht, ha⟩ := h p (List.mem_cons_self p ps)
    obtain ⟨t, ht⟩ := Option.isSome_iff_exists.mp ht
    obtain ⟨a, ha⟩ := Option.isSome_iff_exists.mp ha
    have hbp : buildPrompt p research_topics = .ok (promptOf research_topics t a) := by
      rw [buildPrompt, ht, ha]
    have hrest : ∀ q ∈ ps, q.title.isSome ∧ q.abstract.isSome :=
      fun q hq => h q (List.mem_cons_of_mem p hq)
    rw [List.enumFrom_cons, List.filterMap_cons]
    rw [analyzeGo, hbp]
    simp only [hbp]
    cases horacle : oracle i (promptOf research_topics t a) with
    | error e => rw [ih (i + 1) hrest]
    | ok txt =>
      dsimp only
      by_cases hrel : (parse_ai_response txt).relevant
      · rw [if_pos hrel, ih (i + 1) hrest]
        simp [hrel]
      · rw [if_neg hrel, ih (i + 1) hrest]
        simp [hrel]

/-- Claim C2 (amended): a completion-call error at paper k is caught, that
paper is excluded from relevant_papers and relevance_count, and papers
k+1..N are still processed; total_papers however is the full input length,
errored papers included. -/
theorem analyze_papers_spec (papers : List ParsedPaper) (research_topics : List PyStr)
    (oracle : Nat → PyStr → Except String PyStr)
    (h : ∀ p ∈ papers, p.title.isSome ∧ p.abstract.isSome) :
    analyze_papers papers research_topics oracle =
      .ok { total_papers := papers.length,
            relevant_papers := (papers.enumFrom 1).filterMap (fun ip =>
              match buildPrompt ip.2 research_topics with
              | .error _ => none
              | .ok pr =>
                match oracle ip.1 pr with
                | .error _ => none
                | .ok txt =>
                  if (parse_ai_response txt).relevant then
                    some (ip.2, parse_ai_response txt)
                  else none),
            relevance_count := ((papers.enumFrom 1).filterMap (fun ip =>
              match buildPrompt ip.2 research_topics with
              | .error _ => none
              | .ok pr =>
                match oracle ip.1 pr with
                | .error _ => none
                | .ok txt =>
                  if (parse_ai_response txt).relevant then
                    some (ip.2, parse_ai_response txt)
                  else none)).length } := by
  rw [analyze_papers, analyzeGo_spec research_topics oracle papers 1 h]

/-- Witness for claim C2, applying the amended theorem at a concrete batch
where the call for paper 1 raises and paper 2 is relevant. -/
theorem analyze_papers_spec_witness :
    analyze_papers [exPaperA, exPaperB] ["seg".toList] exOracle2 =
      .ok { total_papers := 2,
            relevant_papers := [(exPaperB,
              { relevant := true, reason := "fits".toList,
                topics := ["seg".toList], main_contribution := "mc".toList })],
            relevance_count := 1 } := by
  rw [analyze_papers_spec [exPaperA, exPaperB] ["seg".toList] exOracle2 (by decide)]
  rfl

/-- Counterexample for claim C2 as stated: with two papers whose first
completion call errors and whose second is relevant, the non-erroring count
is 1 but the returned total_papers is 2: the errored paper is not excluded
from the total. -/
theorem analyze_papers_total_includes_errored :
    analyze_papers [exPaperA, exPaperB] ["seg".toList] exOracle2 =
      .ok { total_papers := 2,
            relevant_papers := [(exPaperB,
              { relevant := true, reason := "fits".toList,
                topics := ["seg".toList], main_contribution := "mc".toList })],
            relevance_count := 1 } ∧ (2 : Nat) ≠ 1 := by
  constructor
  · rfl
  · decide

/-! ### Report grouping (claims C7, C8) -/

theorem blocksFor_cons (pr : ParsedPaper × AIResult) (rest : List (ParsedPaper × AIResult)) :
    blocksFor (pr :: rest) =
      match detailBlock pr with
      | .error e => .error e
      | .ok b =>
        match blocksFor rest with
        | .error e => .error e
        | .ok bs => .ok (b ++ bs) := by
  cases h1 : detailBlock pr <;> cases h2 : blocksFor rest <;>
    (simp only [blocksFor, h1, h2]; rfl)

theorem blocksFor_hasBlock (pr : ParsedPaper × AIResult) :
    ∀ (l : List (ParsedPaper × AIResult)) (out bl : List PyStr),
      pr ∈ l → blocksFor l = .ok out → detailBlock pr = .ok bl → bl <:+: out := by
  intro l
  induction l with
  | nil => intro out bl h; cases h
  | cons q rest ih =>
    intro out bl hmem hrun hdb
    rw [blocksFor_cons] at hrun
    cases h1 : detailBlock q with
    | error e => rw [h1] at hrun; cases hrun
    | ok b =>
      rw [h1] at hrun
      cases h2 : blocksFor rest with
      | error e => rw [h2] at hrun; cases hrun
      | ok bs =>
        rw [h2] at hrun
        cases hrun
        rcases List.mem_cons.mp hmem with rfl | hmem2
        · rw [h1] at hdb
          cases hdb
          exact ⟨[], bs, by simp⟩
        · obtain ⟨s, u, hsu⟩ := ih bs bl hmem2 h2 hdb
          exact ⟨b ++ s, u, by rw [← hsu]; simp⟩

theorem countP_replicate (n : Nat) (q : ParsedPaper × AIResult)
    (p : ParsedPaper × AIResult → Bool) :
    (List.replicate n q).countP p = if p q then n else 0 := by
  induction n with
  | zero => simp
  | succ n ih =>
    rw [List.replicate_succ, List.countP_cons, ih]
    by_cases h : p q <;> simp [h]

theorem topicPapers_countP (rel : List (ParsedPaper × AIResult)) (t : PyStr)
    (pr : ParsedPaper × AIResult) :
    (topicPapers rel t).countP (fun x => x = pr) =
      rel.countP (fun x => x = pr) * pr.2.topics.countP (fun x => x = t) := by
  induction rel with
  | nil => simp [topicPapers]
  | cons q rest ih =>
    have hcons : topicPapers (q :: rest) t =
        List.replicate (q.2.topics.countP (fun x => x = t)) q ++ topicPapers rest t := by
      rw [topicPapers, topicPapers, List.flatMap_cons]
    rw [hcons, List.countP_append, ih, countP_replicate, List.countP_cons]
    by_cases hq : q = pr
    · subst hq
      rw [if_pos (by simp), if_pos (by simp)]
      ring
    · rw [if_neg (by simp [hq]), if_neg (by simp [hq])]
      ring

theorem topicPapers_mem (rel : List (ParsedPaper × AIResult)) (t : PyStr)
    (pr : ParsedPaper × AIResult) (h2 : pr ∈ rel) (h3 : t ∈ pr.2.topics) :
    pr ∈ topicPapers rel t := by
  rw [topicPapers, List.mem_flatMap]
  refine ⟨pr, h2, ?_⟩
  rw [List.mem_replicate]
  refine ⟨?_, rfl⟩
  have hpos : 0 < pr.2.topics.countP (fun x => x = t) :=
    List.countP_pos_iff.mpr ⟨t, h3, by simp⟩
  omega

/-- Claim C7 (amended): a relevant paper whose verdict topic list names a
configured topic gets its full detail block rendered inside that topic's
section (which does exist), once per occurrence of the topic in the verdict
list times its occurrences in relevant_papers — so exactly once under each
matched topic section when verdict topics are duplicate-free; the fan-out is
not deduplicated. -/
theorem topic_fanout (rel : List (ParsedPaper × AIResult)) (topics : List PyStr)
    (t : PyStr) (pr : ParsedPaper × AIResult)
    (h1 : t ∈ topics) (h2 : pr ∈ rel) (h3 : t ∈ pr.2.topics) :
    (∀ out bl, sectionFor rel t = .ok out → detailBlock pr = .ok bl → bl <:+: out) ∧
    (topicPapers rel t).countP (fun x => x = pr) =
      rel.countP (fun x => x = pr) * pr.2.topics.countP (fun x => x = t) ∧
    t ∈ sectionTopics rel topics := by
  have hmem : pr ∈ topicPapers rel t := topicPapers_mem rel t pr h2 h3
  refine ⟨?_, topicPapers_countP rel t pr, ?_⟩
  · intro out bl hsec hdb
    rw [sectionFor] at hsec
    cases hb : blocksFor (topicPapers rel t) with
    | error e => rw [hb] at hsec; cases hsec
    | ok bs =>
      rw [hb] at hsec
      injection hsec with hout
      subst hout
      exact (blocksFor_hasBlock pr (topicPapers rel t) bs bl hmem hb hdb).trans
        ((List.suffix_append _ bs).isInfix)
  · rw [sectionTopics, List.mem_filter]
    refine ⟨h1, ?_⟩
    cases htp : topicPapers rel t with
    | nil => rw [htp] at hmem; cases hmem
    | cons x xs => simp

/-- Witness for claim C7: a paper matched to both seg and det is grouped under
both configured topics, once each (each topic occurs once in its verdict). -/
theorem topic_fanout_witness :
    ((topicPapers [(exPaperA, exVerdict2)] "seg".toList).countP
        (fun x => x = (exPaperA, exVerdict2)) =
      [(exPaperA, exVerdict2)].countP (fun x => x = (exPaperA, exVerdict2)) *
        exVerdict2.topics.countP (fun x => x = "seg".toList)) ∧
    "seg".toList ∈ sectionTopics [(exPaperA, exVerdict2)] exTopics ∧
    "det".toList ∈ sectionTopics [(exPaperA, exVerdict2)] exTopics := by
  have hs := topic_fanout [(exPaperA, exVerdict2)] exTopics "seg".toList
    (exPaperA, exVerdict2) (by decide) (by decide) (by decide)
  have hd := topic_fanout [(exPaperA, exVerdict2)] exTopics "det".toList
    (exPaperA, exVerdict2) (by decide) (by decide) (by decide)
  exact ⟨hs.2.1, hs.2.2, hd.2.2⟩

/-- Counterexample for claim C7 as stated: a verdict listing seg twice puts
the paper twice into the seg group, so its detail block is rendered twice
under that one section (once per group element), not once, though the paper
occurs only once in relevant_papers. -/
theorem topic_block_rendered_twice :
    (topicPapers [(exPaperA, exVerdictDup)] "seg".toList).countP
        (fun x => x = (exPaperA, exVerdictDup)) = 2 ∧
    [(exPaperA, exVerdictDup)].countP (fun x => x = (exPaperA, exVerdictDup)) = 1 ∧
    "seg".toList ∈ exVerdictDup.topics ∧
    (topicPapers [(exPaperA, exVerdictDup)] "seg".toList).length = 2 := by
  decide

/-- Claim C8: every configured topic has a Topic Distribution row whose count
is its number of matched papers (zero included), and a topic with no matched
papers is excluded from the list of topics given a detail section. -/
theorem topic_rows_and_sections (rel : List (ParsedPaper × AIResult))
    (topics : List PyStr) (t : PyStr) (h1 : t ∈ topics) :
    distRow t (topicPapers rel t).length ∈ distRows rel topics ∧
    (topicPapers rel t = [] →
      distRow t 0 ∈ distRows rel topics ∧ t ∉ sectionTopics rel topics) := by
  constructor
  · rw [distRows]
    exact List.mem_map_of_mem _ h1
  · intro hempty
    constructor
    · rw [distRows]
      have h2 : distRow t 0 = distRow t (topicPapers rel t).length := by
        rw [hempty]
        rfl
      rw [h2]
      exact List.mem_map_of_mem _ h1
    · rw [sectionTopics]
      intro hc
      rw [List.mem_filter, hempty] at hc
      simp at hc

/-- Witness for claim C8: the third configured topic matches no paper, keeps a
zero row, and gets no section. -/
theorem topic_rows_and_sections_witness :
    distRow "gan".toList 0 ∈ distRows [(exPaperA, exVerdict2)] exTopics ∧
    "gan".toList ∉ sectionTopics [(exPaperA, exVerdict2)] exTopics := by
  exact (topic_rows_and_sections [(exPaperA, exVerdict2)] exTopics "gan".toList
    (by decide)).2 (by decide)

/-! ### Latest-submission window (claim C6) -/

/-- Claim C6: get_cv_papers takes the first (most recent) result's calendar
date as the window end, subtracts N days for the window start, and renders
exactly the window-filtered results; on the concrete example with days = 3
and papers dated 2024-01-10 and 2024-01-08 the window starts 2024-01-07,
both papers are retained, and the count table has one row of count 1 per
date, descending. -/
theorem get_cv_papers_window :
    (∀ (pd mr : Nat) (results : List ArxivResult) (r0 : ArxivResult),
      results.head? = some r0 →
      get_cv_papers pd mr results =
        some (fetchHeader pd mr (subDays r0.published pd) r0.published
                (filteredPapers results (subDays r0.published pd) r0.published) ++
              paperSections 1 (sortByDateDesc
                (filteredPapers results (subDays r0.published pd) r0.published))) ∧
      ∀ r ∈ results,
        (inWindow (subDays r0.published pd) r0.published r = true ↔
          (dateLe (subDays r0.published pd) r.published = true ∧
           dateLe r.published r0.published = true))) ∧
    subDays ⟨2024, 1, 10⟩ 3 = ⟨2024, 1, 7⟩ ∧
    filteredPapers [exResult1, exResult2] ⟨2024, 1, 7⟩ ⟨2024, 1, 10⟩ =
      [toFPaper exResult1, toFPaper exResult2] ∧
    (dailyDates (filteredPapers [exResult1, exResult2] ⟨2024, 1, 7⟩ ⟨2024, 1, 10⟩)).map
        (fun d => countRow d
          (dateCount (filteredPapers [exResult1, exResult2] ⟨2024, 1, 7⟩ ⟨2024, 1, 10⟩) d)) =
      ["| 2024-01-10 | 1 |".toList, "| 2024-01-08 | 1 |".toList] := by
  refine ⟨?_, by decide, by decide, by decide⟩
  intro pd mr results r0 h
  constructor
  · rw [get_cv_papers, h]
  · intro r _
    rw [inWindow, Bool.and_eq_true]

/-- Witness for claim C6, applying the theorem to the concrete two-paper run. -/
theorem get_cv_papers_window_witness :
    get_cv_papers 3 500 [exResult1, exResult2] =
      some (fetchHeader 3 500 (subDays ⟨2024, 1, 10⟩ 3) ⟨2024, 1, 10⟩
              (filteredPapers [exResult1, exResult2] (subDays ⟨2024, 1, 10⟩ 3) ⟨2024, 1, 10⟩) ++
            paperSections 1 (sortByDateDesc
              (filteredPapers [exResult1, exResult2] (subDays ⟨2024, 1, 10⟩ 3) ⟨2024, 1, 10⟩))) :=
  ((get_cv_papers_window.1 3 500 [exResult1, exResult2] exResult1 rfl).1)

/-! ### Digest round-trip machinery (claim C1) -/

theorem isPrefixOf_append (m t : PyStr) : m.isPrefixOf (m ++ t) = true := by
  rw [List.isPrefixOf_iff_prefix]
  exact List.prefix_append _ _

theorem mPaper_full : mPaper = '#' :: '#' :: ' ' :: '📄' :: ' ' :: 'P' :: 'a' :: 'p' :: 'e' :: 'r' :: ' ' :: '#' :: [] := rfl

theorem mTitle_full : mTitle = '#' :: '#' :: '#' :: ' ' :: [] := rfl

theorem mDate_full : mDate = '*' :: '*' :: 'D' :: "ate (UTC):**".toList := rfl

theorem mAuthors_full : mAuthors = '*' :: '*' :: 'A' :: 'u' :: "thors:**".toList := rfl

theorem mAbstract_full : mAbstract = '*' :: '*' :: 'A' :: 'b' :: "stract:**".toList := rfl

theorem mLinks_full : mLinks = '*' :: '*' :: 'L' :: "inks:**".toList := rfl

theorem mArxiv_full : mArxiv = '-' :: ' ' :: '[' :: 'a' :: "rXiv Page]".toList := rfl

theorem mPdf_full : mPdf = '-' :: ' ' :: '[' :: 'P' :: "DF]".toList := rfl

theorem mHr_full : mHr = '-' :: '-' :: '-' :: [] := rfl

theorem parseStep_skip (acc : List ParsedPaper) (cur : ParsedPaper) (l : PyStr)
    (h8 : ∀ m ∈ dispatchMarkers, m.isPrefixOf (strip l) = false)
    (h9 : cur.abstract = none ∨ strip l = [] ∨ mHr.isPrefixOf (strip l) = true) :
    parseStep acc cur l = .ok (acc, cur) := by
  have h1 := h8 mPaper (by simp [dispatchMarkers])
  have h2 := h8 mTitle (by simp [dispatchMarkers])
  have h3 := h8 mDate (by simp [dispatchMarkers])
  have h4 := h8 mAuthors (by simp [dispatchMarkers])
  have h5 := h8 mAbstract (by simp [dispatchMarkers])
  have h6 := h8 mLinks (by simp [dispatchMarkers])
  have h7 := h8 mArxiv (by simp [dispatchMarkers])
  have h7b := h8 mPdf (by simp [dispatchMarkers])
  rw [parseStep]
  simp only [h1, h2, h3, h4, h5, h6, h7, h7b, Bool.false_eq_true, if_false]
  rcases h9 with h | h | h
  · rw [h]
  · cases habs : cur.abstract with
    | none => rfl
    | some a => simp [h]
  · cases habs : cur.abstract with
    | none => rfl
    | some a => simp [h]

theorem parseStep_empty (acc : List ParsedPaper) (cur : ParsedPaper) :
    parseStep acc cur [] = .ok (acc, cur) := by
  obtain ⟨n, t, d, au, ab, ar, pu⟩ := cur
  cases ab <;> rfl

theorem parseStep_hrLine (acc : List ParsedPaper) (cur : ParsedPaper) :
    parseStep acc cur mHr = .ok (acc, cur) := by
  obtain ⟨n, t, d, au, ab, ar, pu⟩ := cur
  cases ab <;> rfl

theorem runLines_cons_ok (st st2 : List ParsedPaper × ParsedPaper) (l : PyStr)
    (ls : List PyStr) (h : parseStep st.1 st.2 l = .ok st2) :
    runLines st (l :: ls) = runLines st2 ls := by
  rw [runLines, h]

theorem runLines_append (a : List PyStr) :
    ∀ (st : List ParsedPaper × ParsedPaper) (b : List PyStr),
      runLines st (a ++ b) =
        match runLines st a with
        | .ok st2 => runLines st2 b
        | .error e => .error e := by
  induction a with
  | nil => intro st b; rfl
  | cons l a ih =>
    intro st b
    rw [List.cons_append, runLines]
    cases h : parseStep st.1 st.2 l with
    | error e =>
      dsimp only
      conv_rhs => rw [runLines, h]
    | ok st2 =>
      dsimp only
      conv_rhs => rw [runLines, h]
      exact ih st2 b

theorem runLines_all_inert (lines : List PyStr) (acc : List ParsedPaper)
    (cur : ParsedPaper)
    (h : ∀ line ∈ lines, parseStep acc cur line = .ok (acc, cur)) :
    runLines (acc, cur) lines = .ok (acc, cur) := by
  induction lines with
  | nil => rfl
  | cons l ls ih =>
    rw [runLines_cons_ok (acc, cur) (acc, cur) l ls (h l (List.mem_cons_self l ls))]
    exact ih fun x hx => h x (List.mem_cons_of_mem l hx)

theorem dispatch_not_prefix_one (c1 : Char) (t : PyStr)
    (h1 : c1 ≠ '#') (h2 : c1 ≠ '*') (h3 : c1 ≠ '-') :
    ∀ m ∈ dispatchMarkers, m.isPrefixOf (c1 :: t) = false := by
  intro m hm
  simp only [dispatchMarkers, List.mem_cons, List.not_mem_nil, or_false] at hm
  rcases hm with rfl | rfl | rfl | rfl | rfl | rfl | rfl | rfl
  all_goals
    by_contra hq
    rw [Bool.not_eq_false] at hq
    first
      | (rw [mPaper_full] at hq) | (rw [mTitle_full] at hq) | (rw [mDate_full] at hq)
      | (rw [mAuthors_full] at hq) | (rw [mAbstract_full] at hq) | (rw [mLinks_full] at hq)
      | (rw [mArxiv_full] at hq) | (rw [mPdf_full] at hq)
  all_goals
    simp only [List.isPrefixOf, Bool.and_eq_true, beq_iff_eq] at hq
    first
      | exact h1 hq.1.symm
      | exact h2 hq.1.symm
      | exact h3 hq.1.symm

theorem dispatch_not_prefix_two (c1 c2 : Char) (t : PyStr)
    (hn1 : ¬(c1 = '#' ∧ c2 = '#')) (hn2 : ¬(c1 = '*' ∧ c2 = '*'))
    (hn3 : ¬(c1 = '-' ∧ c2 = ' ')) :
    ∀ m ∈ dispatchMarkers, m.isPrefixOf (c1 :: c2 :: t) = false := by
  intro m hm
  simp only [dispatchMarkers, List.mem_cons, List.not_mem_nil, or_false] at hm
  rcases hm with rfl | rfl | rfl | rfl | rfl | rfl | rfl | rfl
  all_goals
    by_contra hq
    rw [Bool.not_eq_false] at hq
    first
      | (rw [mPaper_full] at hq) | (rw [mTitle_full] at hq) | (rw [mDate_full] at hq)
      | (rw [mAuthors_full] at hq) | (rw [mAbstract_full] at hq) | (rw [mLinks_full] at hq)
      | (rw [mArxiv_full] at hq) | (rw [mPdf_full] at hq)
  all_goals
    simp only [List.isPrefixOf, Bool.and_eq_true, beq_iff_eq] at hq
    first
      | exact hn1 ⟨hq.1.symm, hq.2.1.symm⟩
      | exact hn2 ⟨hq.1.symm, hq.2.1.symm⟩
      | exact hn3 ⟨hq.1.symm, hq.2.1.symm⟩

theorem strip_cons2 (c1 c2 : Char) (l : PyStr) (h1 : isWS c1 = false)
    (h2 : isWS c2 = false) : strip (c1 :: c2 :: l) = c1 :: c2 :: rstrip l := by
  rw [strip_cons_of c1 _ h1, rstrip_cons_of c2 l h2]

theorem parseStep_skip_head2 (acc : List ParsedPaper) (cur : ParsedPaper)
    (c1 c2 : Char) (l : PyStr) (hw1 : isWS c1 = false) (hw2 : isWS c2 = false)
    (hn1 : ¬(c1 = '#' ∧ c2 = '#')) (hn2 : ¬(c1 = '*' ∧ c2 = '*'))
    (hn3 : ¬(c1 = '-' ∧ c2 = ' ')) (hab : cur.abstract = none) :
    parseStep acc cur (c1 :: c2 :: l) = .ok (acc, cur) := by
  apply parseStep_skip
  · rw [strip_cons2 c1 c2 l hw1 hw2]
    exact dispatch_not_prefix_two c1 c2 (rstrip l) hn1 hn2 hn3
  · exact Or.inl hab

theorem parseStep_skip_head1 (acc : List ParsedPaper) (cur : ParsedPaper)
    (c1 : Char) (l : PyStr) (hw1 : isWS c1 = false)
    (h1 : c1 ≠ '#') (h2 : c1 ≠ '*') (h3 : c1 ≠ '-') (hab : cur.abstract = none) :
    parseStep acc cur (c1 :: l) = .ok (acc, cur) := by
  apply parseStep_skip
  · rw [strip_cons_of c1 l hw1]
    exact dispatch_not_prefix_one c1 (rstrip l) h1 h2 h3
  · exact Or.inl hab

theorem header_inert (pd mr : Nat) (s l : Date) (ps : List FPaper)
    (acc : List ParsedPaper) (cur : ParsedPaper) (hab : cur.abstract = none) :
    runLines (acc, cur) (fetchHeader pd mr s l ps) = .ok (acc, cur) := by
  apply runLines_all_inert
  intro line hline
  rw [fetchHeader] at hline
  simp only [List.mem_append, List.mem_cons, List.mem_map, List.not_mem_nil,
    or_false] at hline
  rcases hline with ((rfl | rfl | rfl | rfl | rfl | rfl | rfl | rfl | rfl | rfl |
      rfl | rfl | rfl | rfl) | ⟨d, hd, rfl⟩) | (rfl | rfl | rfl)
  · exact parseStep_skip acc cur _ (by decide) (Or.inl hab)
  · exact parseStep_empty acc cur
  · exact parseStep_skip_head2 acc cur '*' 'L' _ (by decide) (by decide)
      (by simp) (by simp) (by simp) hab
  · exact parseStep_empty acc cur
  · exact parseStep_skip_head2 acc cur '*' 'M' _ (by decide) (by decide)
      (by simp) (by simp) (by simp) hab
  · exact parseStep_empty acc cur
  · exact parseStep_skip acc cur _ (by decide) (Or.inl hab)
  · exact parseStep_empty acc cur
  · exact parseStep_hrLine acc cur
  · exact parseStep_empty acc cur
  · exact parseStep_skip acc cur _ (by decide) (Or.inl hab)
  · exact parseStep_empty acc cur
  · exact parseStep_skip acc cur _ (by decide) (Or.inl hab)
  · exact parseStep_skip acc cur _ (by decide) (Or.inl hab)
  · exact parseStep_skip_head1 acc cur '|' _ (by decide) (by decide) (by decide)
      (by decide) hab
  · exact parseStep_empty acc cur
  · exact parseStep_hrLine acc cur
  · exact parseStep_empty acc cur

theorem strip_marker_append (m : PyStr) (c : Char) (rest body : PyStr)
    (hm : m = c :: rest) (hws : isWS c = false) (hbody : rstrip body = body)
    (hne : body ≠ []) : strip (m ++ body) = m ++ body := by
  rw [strip, rstrip_append m body (by rw [hbody]; exact hne), hbody, hm]
  exact lstrip_cons_of c (rest ++ body) hws

theorem parseStep_title (acc : List ParsedPaper) (cur : ParsedPaper) (title : PyStr)
    (hT : Trimmed title) (hne : title ≠ []) :
    parseStep acc cur (mTitle ++ title) = .ok (acc, { cur with title := some title }) := by
  have hstrip : strip (mTitle ++ title) = mTitle ++ title :=
    strip_marker_append mTitle '#' _ title rfl (by decide) hT.2 hne
  have h1 : mPaper.isPrefixOf (mTitle ++ title) = false := by
    rw [mPaper_full, mTitle_full]
    simp [List.isPrefixOf]
  have h2 : mTitle.isPrefixOf (mTitle ++ title) = true := isPrefixOf_append _ _
  have hdrop : (mTitle ++ title).drop 4 = title := by
    rw [show (4 : Nat) = mTitle.length from rfl, List.drop_left]
  rw [parseStep]
  simp only [hstrip, h1, h2, Bool.false_eq_true, if_false, if_true, hdrop,
    Trimmed.strip_eq title hT]

theorem parseStep_date (acc : List ParsedPaper) (cur : ParsedPaper) (d : Date) :
    parseStep acc cur (mDate ++ (' ' :: dateStr d)) =
      .ok (acc, { cur with date := some (dateStr d) }) := by
  have hbody : rstrip (' ' :: dateStr d) = ' ' :: dateStr d := by
    rw [show (' ' :: dateStr d) = [' '] ++ dateStr d from rfl,
      rstrip_append _ _ (by rw [rstrip_dateStr]; exact dateStr_ne_nil d), rstrip_dateStr]
  have hstrip : strip (mDate ++ (' ' :: dateStr d)) = mDate ++ (' ' :: dateStr d) :=
    strip_marker_append mDate '*' _ _ rfl (by decide) hbody (by simp)
  have h1 : mPaper.isPrefixOf (mDate ++ (' ' :: dateStr d)) = false := by
    rw [mPaper_full, mDate_full]
    simp [List.isPrefixOf]
  have h2 : mTitle.isPrefixOf (mDate ++ (' ' :: dateStr d)) = false := by
    rw [mTitle_full, mDate_full]
    simp [List.isPrefixOf]
  have h3 : mDate.isPrefixOf (mDate ++ (' ' :: dateStr d)) = true := isPrefixOf_append _ _
  have hdrop : (mDate ++ (' ' :: dateStr d)).drop 15 = ' ' :: dateStr d := by
    rw [show (15 : Nat) = mDate.length from rfl, List.drop_left]
  have hstrip2 : strip (' ' :: dateStr d) = dateStr d := by
    rw [strip, hbody, show lstrip (' ' :: dateStr d) = lstrip (dateStr d) from by
      simp [lstrip, List.dropWhile_cons, show isWS ' ' = true from by decide]]
    exact lstrip_nonws _ (dateStr_nonws d)
  rw [parseStep]
  simp only [hstrip, h1, h2, h3, Bool.false_eq_true, if_false, if_true, hdrop, hstrip2]

theorem parseStep_authors (acc : List ParsedPaper) (cur : ParsedPaper) (aj : PyStr)
    (hT : Trimmed aj) (hne : aj ≠ []) :
    parseStep acc cur (mAuthors ++ (' ' :: aj)) =
      .ok (acc, { cur with authors := some aj }) := by
  have hbody : rstrip (' ' :: aj) = ' ' :: aj := by
    rw [show (' ' :: aj) = [' '] ++ aj from rfl,
      rstrip_append _ _ (by rw [hT.2]; exact hne), hT.2]
  have hstrip : strip (mAuthors ++ (' ' :: aj)) = mAuthors ++ (' ' :: aj) :=
    strip_marker_append mAuthors '*' _ _ rfl (by decide) hbody (by simp)
  have h1 : mPaper.isPrefixOf (mAuthors ++ (' ' :: aj)) = false := by
    rw [mPaper_full, mAuthors_full]
    simp [List.isPrefixOf]
  have h2 : mTitle.isPrefixOf (mAuthors ++ (' ' :: aj)) = false := by
    rw [mTitle_full, mAuthors_full]
    simp [List.isPrefixOf]
  have h3 : mDate.isPrefixOf (mAuthors ++ (' ' :: aj)) = false := by
    rw [mDate_full, mAuthors_full]
    simp [List.isPrefixOf]
  have h4 : mAuthors.isPrefixOf (mAuthors ++ (' ' :: aj)) = true := isPrefixOf_append _ _
  have hdrop : (mAuthors ++ (' ' :: aj)).drop 12 = ' ' :: aj := by
    rw [show (12 : Nat) = mAuthors.length from rfl, List.drop_left]
  have hstrip2 : strip (' ' :: aj) = aj := by
    rw [strip, hbody, show lstrip (' ' :: aj) = lstrip aj from by
      simp [lstrip, List.dropWhile_cons, show isWS ' ' = true from by decide]]
    exact hT.1
  rw [parseStep]
  simp only [hstrip, h1, h2, h3, h4, Bool.false_eq_true, if_false, if_true, hdrop, hstrip2]

theorem parseStep_abstractHdr (acc : List ParsedPaper) (cur : ParsedPaper) :
    parseStep acc cur mAbstract = .ok (acc, { cur with abstract := some [] }) := rfl

theorem parseStep_linksLine (acc : List ParsedPaper) (cur : ParsedPaper) (a : PyStr)
    (hab : cur.abstract = some a) :
    parseStep acc cur mLinks = .ok (acc, { cur with abstract := some (strip a) }) := by
  have h1 : mPaper.isPrefixOf (strip mLinks) = false := by decide
  have h2 : mTitle.isPrefixOf (strip mLinks) = false := by decide
  have h3 : mDate.isPrefixOf (strip mLinks) = false := by decide
  have h4 : mAuthors.isPrefixOf (strip mLinks) = false := by decide
  have h5 : mAbstract.isPrefixOf (strip mLinks) = false := by decide
  have h6 : mLinks.isPrefixOf (strip mLinks) = true := by decide
  rw [parseStep]
  simp only [h1, h2, h3, h4, h5, h6, Bool.false_eq_true, if_false, if_true, hab]

theorem pyFind_append_cons (c : Char) (a rest : PyStr) (ha : c ∉ a) :
    pyFind c (a ++ c :: rest) = (a.length : Int) := by
  induction a with
  | nil => simp [pyFind]
  | cons x a ih =>
    have hx : x ≠ c := fun h => ha (h ▸ List.mem_cons_self x a)
    have ha2 : c ∉ a := fun h => ha (List.mem_cons_of_mem x h)
    rw [List.cons_append, pyFind, if_neg hx, ih ha2]
    rw [if_neg (by omega)]
    simp only [List.length_cons]
    push_cast
    ring

theorem pySlice_nat (s : PyStr) (i j : Nat) (hi : i ≤ s.length) (hj : j ≤ s.length) :
    pySlice s (i : Int) (j : Int) = (s.take j).drop i := by
  unfold pySlice
  have hni : (if (i : Int) < 0 then max ((s.length : Int) + i) 0
      else min (i : Int) (s.length : Int)).toNat = i := by
    rw [if_neg (by omega)]
    omega
  have hnj : (if (j : Int) < 0 then max ((s.length : Int) + j) 0
      else min (j : Int) (s.length : Int)).toNat = j := by
    rw [if_neg (by omega)]
    omega
  dsimp only
  rw [hni, hnj]

theorem extractParen_spec (a u : PyStr) (ha1 : '(' ∉ a) (ha2 : ')' ∉ a)
    (hu : ')' ∉ u) : extractParen (a ++ '(' :: (u ++ [')'])) = u := by
  have hmem : ')' ∉ a ++ '(' :: u := by
    simp only [List.mem_append, List.mem_cons]
    rintro (h | h | h)
    · exact ha2 h
    · cases h
    · exact hu h
  have hfo : pyFind '(' (a ++ '(' :: (u ++ [')'])) = (a.length : Int) :=
    pyFind_append_cons '(' a _ ha1
  have hre : a ++ '(' :: (u ++ [')']) = (a ++ '(' :: u) ++ ')' :: [] := by simp
  have hfc : pyFind ')' (a ++ '(' :: (u ++ [')'])) = ((a ++ '(' :: u).length : Int) := by
    rw [hre]
    exact pyFind_append_cons ')' (a ++ '(' :: u) [] hmem
  have hlen : (a ++ '(' :: u).length = a.length + 1 + u.length := by
    simp only [List.length_append, List.length_cons]
    omega
  have hslen : (a ++ '(' :: (u ++ [')'])).length = a.length + 1 + u.length + 1 := by
    simp only [List.length_append, List.length_cons, List.length_nil]
    omega
  rw [extractParen, hfo, hfc, hlen]
  have hcast : (a.length : Int) + 1 = ((a.length + 1 : Nat) : Int) := by push_cast; ring
  rw [hcast, pySlice_nat _ _ _ (by rw [hslen]; omega) (by rw [hslen]; omega)]
  rw [hre, ← hlen, List.take_left]
  rw [show a ++ '(' :: u = (a ++ ['(']) ++ u from by simp,
    show a.length + 1 = (a ++ ['(']).length from by simp, List.drop_left]

theorem parseStep_arxivLine (acc : List ParsedPaper) (cur : ParsedPaper) (u : PyStr)
    (hu : ')' ∉ u) :
    parseStep acc cur (mArxiv ++ ('(' :: (u ++ [')']))) =
      .ok (acc, { cur with arxiv_url := some u }) := by
  have hbody : rstrip ('(' :: (u ++ [')'])) = '(' :: (u ++ [')']) := by
    rw [show ('(' :: (u ++ [')'])) = ('(' :: u) ++ [')'] from by simp,
      rstrip_append _ _ (by decide)]
    rfl
  have hstrip : strip (mArxiv ++ ('(' :: (u ++ [')']))) = mArxiv ++ ('(' :: (u ++ [')'])) :=
    strip_marker_append mArxiv '-' _ _ rfl (by decide) hbody (by simp)
  have h1 : mPaper.isPrefixOf (mArxiv ++ ('(' :: (u ++ [')']))) = false := by
    rw [mPaper_full, mArxiv_full]
    simp [List.isPrefixOf]
  have h2 : mTitle.isPrefixOf (mArxiv ++ ('(' :: (u ++ [')']))) = false := by
    rw [mTitle_full, mArxiv_full]
    simp [List.isPrefixOf]
  have h3 : mDate.isPrefixOf (mArxiv ++ ('(' :: (u ++ [')']))) = false := by
    rw [mDate_full, mArxiv_full]
    simp [List.isPrefixOf]
  have h4 : mAuthors.isPrefixOf (mArxiv ++ ('(' :: (u ++ [')']))) = false := by
    rw [mAuthors_full, mArxiv_full]
    simp [List.isPrefixOf]
  have h5 : mAbstract.isPrefixOf (mArxiv ++ ('(' :: (u ++ [')']))) = false := by
    rw [mAbstract_full, mArxiv_full]
    simp [List.isPrefixOf]
  have h6 : mLinks.isPrefixOf (mArxiv ++ ('(' :: (u ++ [')']))) = false := by
    rw [mLinks_full, mArxiv_full]
    simp [List.isPrefixOf]
  have h7 : mArxiv.isPrefixOf (mArxiv ++ ('(' :: (u ++ [')']))) = true :=
    isPrefixOf_append _ _
  have hex : extractParen (mArxiv ++ ('(' :: (u ++ [')']))) = u :=
    extractParen_spec mArxiv u (by decide) (by decide) hu
  rw [parseStep]
  simp only [hstrip, h1, h2, h3, h4, h5, h6, h7, Bool.false_eq_true, if_false,
    if_true, hex]

theorem parseStep_pdfLine (acc : List ParsedPaper) (cur : ParsedPaper) (u : PyStr)
    (hu : ')' ∉ u) :
    parseStep acc cur (mPdf ++ ('(' :: (u ++ [')']))) =
      .ok (acc, { cur with pdf_url := some u }) := by
  have hbody : rstrip ('(' :: (u ++ [')'])) = '(' :: (u ++ [')']) := by
    rw [show ('(' :: (u ++ [')'])) = ('(' :: u) ++ [')'] from by simp,
      rstrip_append _ _ (by decide)]
    rfl
  have hstrip : strip (mPdf ++ ('(' :: (u ++ [')']))) = mPdf ++ ('(' :: (u ++ [')'])) :=
    strip_marker_append mPdf '-' _ _ rfl (by decide) hbody (by simp)
  have h1 : mPaper.isPrefixOf (mPdf ++ ('(' :: (u ++ [')']))) = false := by
    rw [mPaper_full, mPdf_full]
    simp [List.isPrefixOf]
  have h2 : mTitle.isPrefixOf (mPdf ++ ('(' :: (u ++ [')']))) = false := by
    rw [mTitle_full, mPdf_full]
    simp [List.isPrefixOf]
  have h3 : mDate.isPrefixOf (mPdf ++ ('(' :: (u ++ [')']))) = false := by
    rw [mDate_full, mPdf_full]
    simp [List.isPrefixOf]
  have h4 : mAuthors.isPrefixOf (mPdf ++ ('(' :: (u ++ [')']))) = false := by
    rw [mAuthors_full, mPdf_full]
    simp [List.isPrefixOf]
  have h5 : mAbstract.isPrefixOf (mPdf ++ ('(' :: (u ++ [')']))) = false := by
    rw [mAbstract_full, mPdf_full]
    simp [List.isPrefixOf]
  have h6 : mLinks.isPrefixOf (mPdf ++ ('(' :: (u ++ [')']))) = false := by
    rw [mLinks_full, mPdf_full]
    simp [List.isPrefixOf]
  have h7 : mArxiv.isPrefixOf (mPdf ++ ('(' :: (u ++ [')']))) = false := by
    rw [mArxiv_full, mPdf_full]
    simp [List.isPrefixOf]
  have h8 : mPdf.isPrefixOf (mPdf ++ ('(' :: (u ++ [')']))) = true :=
    isPrefixOf_append _ _
  have hex : extractParen (mPdf ++ ('(' :: (u ++ [')']))) = u :=
    extractParen_spec mPdf u (by decide) (by decide) hu
  rw [parseStep]
  simp only [hstrip, h1, h2, h3, h4, h5, h6, h7, h8, Bool.false_eq_true, if_false,
    if_true, hex]

theorem parseStep_appendAbs (acc : List ParsedPaper) (cur : ParsedPaper)
    (a l : PyStr) (hab : cur.abstract = some a)
    (h8 : ∀ m ∈ dispatchMarkers, m.isPrefixOf (strip l) = false)
    (hhr : mHr.isPrefixOf (strip l) = false) (hne : strip l ≠ []) :
    parseStep acc cur l = .ok (acc, { cur with abstract := some (a ++ strip l ++ [' ']) }) := by
  have h1 := h8 mPaper (by simp [dispatchMarkers])
  have h2 := h8 mTitle (by simp [dispatchMarkers])
  have h3 := h8 mDate (by simp [dispatchMarkers])
  have h4 := h8 mAuthors (by simp [dispatchMarkers])
  have h5 := h8 mAbstract (by simp [dispatchMarkers])
  have h6 := h8 mLinks (by simp [dispatchMarkers])
  have h7 := h8 mArxiv (by simp [dispatchMarkers])
  have h7b := h8 mPdf (by simp [dispatchMarkers])
  have hie : (strip l).isEmpty = false := by
    cases hc : strip l with
    | nil => exact absurd hc hne
    | cons x xs => rfl
  rw [parseStep]
  simp only [h1, h2, h3, h4, h5, h6, h7, h7b, Bool.false_eq_true, if_false, hab,
    hie, hhr, Bool.or_self, List.append_assoc]

theorem dropWhile_ws_idem (l : PyStr) :
    List.dropWhile isWS (List.dropWhile isWS l) = List.dropWhile isWS l := by
  induction l with
  | nil => rfl
  | cons c t ih =>
    by_cases h : isWS c = true
    · rw [List.dropWhile_cons, if_pos h]
      exact ih
    · rw [List.dropWhile_cons, if_neg h, List.dropWhile_cons, if_neg h]

theorem dropWhile_head_false (l : PyStr) (c : Char) (t : PyStr)
    (h : List.dropWhile isWS l = c :: t) : isWS c = false := by
  induction l with
  | nil => cases h
  | cons x xs ih =>
    rw [List.dropWhile_cons] at h
    by_cases hx : isWS x = true
    · rw [if_pos hx] at h
      exact ih h
    · rw [if_neg hx] at h
      injection h with h1 _
      rw [← h1, ← Bool.not_eq_true]
      exact hx

theorem lstrip_strip (l : PyStr) : lstrip (strip l) = strip l := by
  rw [strip, lstrip, lstrip, dropWhile_ws_idem]

theorem rstrip_getLast_nonws (l : PyStr) :
    ∀ x, (rstrip l).getLast? = some x → isWS x = false := by
  intro x hx
  rw [rstrip, List.getLast?_reverse] at hx
  cases hdw : List.dropWhile isWS l.reverse with
  | nil => rw [hdw] at hx; cases hx
  | cons c t =>
    rw [hdw] at hx
    injection hx with h1
    rw [← h1]
    exact dropWhile_head_false _ _ _ hdw

theorem rstrip_strip (l : PyStr) : rstrip (strip l) = strip l := by
  rcases hc : strip l with _ | ⟨c, t⟩
  · simp [rstrip]
  · rw [← hc]
    apply rstrip_eq_self_of_getLast
    intro x hx
    apply rstrip_getLast_nonws l
    have hsuf : strip l <:+ rstrip l := by
      rw [strip, lstrip]
      exact List.dropWhile_suffix isWS
    obtain ⟨pre, hpre⟩ := hsuf
    rw [← hpre, List.getLast?_append_of_ne_nil _ (by rw [hc]; simp)]
    exact hx

theorem rstrip_append_sp (x : PyStr) : rstrip (x ++ [' ']) = rstrip x := by
  rw [rstrip, rstrip, List.reverse_append]
  simp [List.dropWhile_cons, show isWS ' ' = true from by decide]

theorem joinSp_cons (t : PyStr) (ts : List PyStr) :
    joinSp (t :: ts) = (t ++ [' ']) ++ joinSp ts := by
  simp [joinSp]

theorem intercalate_sp_ne_nil (t : PyStr) (ts : List PyStr) (ht : t ≠ []) :
    List.intercalate [' '] (t :: ts) ≠ [] := by
  cases ts with
  | nil => simpa [List.intercalate] using ht
  | cons r rs =>
    rw [show List.intercalate [' '] (t :: r :: rs) =
        t ++ [' '] ++ List.intercalate [' '] (r :: rs) from by
      simp [List.intercalate, List.intersperse]]
    simp [ht]

theorem rstrip_joinSp : ∀ (ts : List PyStr) (t : PyStr),
    (∀ x ∈ t :: ts, x ≠ [] ∧ rstrip x = x) →
    rstrip (joinSp (t :: ts)) = List.intercalate [' '] (t :: ts) := by
  intro ts
  induction ts with
  | nil =>
    intro t h
    have h1 := h t (List.mem_cons_self t [])
    rw [joinSp_cons, show joinSp [] = [] from rfl, List.append_nil, rstrip_append_sp,
      h1.2]
    simp [List.intercalate]
  | cons r rs ih =>
    intro t h
    have hr := h r (List.mem_cons_of_mem t (List.mem_cons_self r rs))
    have hrest : ∀ x ∈ r :: rs, x ≠ [] ∧ rstrip x = x :=
      fun x hx => h x (List.mem_cons_of_mem t hx)
    have hne2 : rstrip (joinSp (r :: rs)) ≠ [] := by
      rw [ih r hrest]
      exact intercalate_sp_ne_nil r rs hr.1
    rw [joinSp_cons, rstrip_append _ _ hne2, ih r hrest,
      show List.intercalate [' '] (t :: r :: rs) =
        t ++ [' '] ++ List.intercalate [' '] (r :: rs) from by
      simp [List.intercalate, List.intersperse]]

theorem strip_joinSp (ts : List PyStr)
    (h : ∀ x ∈ ts, x ≠ [] ∧ lstrip x = x ∧ rstrip x = x) :
    strip (joinSp ts) = List.intercalate [' '] ts := by
  cases ts with
  | nil => rfl
  | cons t ts =>
    rw [strip, rstrip_joinSp ts t (fun x hx => ⟨(h x hx).1, (h x hx).2.2⟩)]
    obtain ⟨ht1, ht2, _⟩ := h t (List.mem_cons_self t ts)
    obtain ⟨c, t2, rfl⟩ : ∃ c t2, t = c :: t2 := by
      cases t with
      | nil => exact absurd rfl ht1
      | cons c t2 => exact ⟨c, t2, rfl⟩
    have hcw : isWS c = false := by
      by_contra hq
      rw [Bool.not_eq_false] at hq
      rw [lstrip, List.dropWhile_cons, if_pos hq] at ht2
      have hlen : (List.dropWhile isWS t2).length ≤ t2.length :=
        (List.dropWhile_suffix isWS).length_le
      rw [ht2] at hlen
      simp at hlen
    cases ts with
    | nil =>
      rw [show List.intercalate [' '] [c :: t2] = c :: t2 from by simp [List.intercalate]]
      exact lstrip_cons_of c t2 hcw
    | cons r rs =>
      rw [show List.intercalate [' '] ((c :: t2) :: r :: rs) =
          (c :: t2) ++ [' '] ++ List.intercalate [' '] (r :: rs) from by
        simp [List.intercalate, List.intersperse]]
      exact lstrip_cons_of c _ hcw

theorem summaryOK_dispatch (l : PyStr) (h : SummaryLineOK l) :
    ∀ m ∈ dispatchMarkers, m.isPrefixOf (strip l) = false := by
  intro m hm
  apply h
  simp only [dispatchMarkers, List.mem_cons, List.not_mem_nil, or_false] at hm
  rcases hm with rfl | rfl | rfl | rfl | rfl | rfl | rfl | rfl <;>
    simp [allMarkers]

theorem runLines_summary : ∀ (ls : List PyStr) (acc : List ParsedPaper)
    (cur : ParsedPaper) (a : PyStr),
    cur.abstract = some a → (∀ l ∈ ls, SummaryLineOK l) →
    runLines (acc, cur) ls =
      .ok (acc, { cur with
        abstract := some (a ++ joinSp ((ls.map strip).filter (fun t => t ≠ []))) }) := by
  intro ls
  induction ls with
  | nil =>
    intro acc cur a hab _
    rw [runLines]
    obtain ⟨n, t, d, au, ab, ar, pu⟩ := cur
    simp only [joinSp, List.map_nil, List.filter_nil, List.flatten_nil, List.append_nil]
    simp_all
  | cons l ls ih =>
    intro acc cur a hab hok
    have hok1 := hok l (List.mem_cons_self l ls)
    have h8 := summaryOK_dispatch l hok1
    have hrest : ∀ x ∈ ls, SummaryLineOK x := fun x hx => hok x (List.mem_cons_of_mem l hx)
    by_cases hemp : strip l = []
    · rw [runLines_cons_ok (acc, cur) (acc, cur) l ls
        (parseStep_skip acc cur l h8 (Or.inr (Or.inl hemp)))]
      rw [ih acc cur a hab hrest]
      simp [List.filter_cons, hemp]
    · have hhr : mHr.isPrefixOf (strip l) = false := hok1 mHr (by simp [allMarkers])
      rw [runLines_cons_ok (acc, cur) _ l ls
        (parseStep_appendAbs acc cur a l hab h8 hhr hemp)]
      rw [ih acc _ (a ++ (strip l ++ [' '])) (by simp) hrest]
      simp [List.filter_cons, hemp, joinSp_cons]

theorem runLines_cons_ok2 (a : List ParsedPaper) (c : ParsedPaper)
    (st2 : List ParsedPaper × ParsedPaper) (l : PyStr) (ls : List PyStr)
    (h : parseStep a c l = .ok st2) :
    runLines (a, c) (l :: ls) = runLines st2 ls :=
  runLines_cons_ok (a, c) st2 l ls h

theorem runLines_paperBlock (i : Nat) (p : FPaper) (acc : List ParsedPaper)
    (cur : ParsedPaper) (hwb : WBPaper p) :
    runLines (acc, cur) (paperLines i p) =
      .ok ((if cur.isBlank then acc else acc ++ [cur]), expectedRecord p) := by
  obtain ⟨ht, htne, -, ha, hane, -, hup, -, hpp, -, hsum⟩ := hwb
  have hstrip : strip (joinSp (((splitChar '\n' p.summary).map strip).filter
      (fun t => t ≠ []))) =
      List.intercalate [' '] (((splitChar '\n' p.summary).map strip).filter
      (fun t => t ≠ [])) := by
    apply strip_joinSp
    intro x hx
    rw [List.mem_filter] at hx
    obtain ⟨hx1, hx2⟩ := hx
    obtain ⟨l0, -, rfl⟩ := List.mem_map.mp hx1
    exact ⟨by simpa using hx2, lstrip_strip l0, rstrip_strip l0⟩
  rw [paperLines, List.append_assoc]
  rw [runLines_append]
  rw [runLines_cons_ok2 _ _ _ _ _ (parseStep_paperHeader i acc cur)]
  rw [runLines_cons_ok2 _ _ _ _ _ (parseStep_empty _ _)]
  rw [runLines_cons_ok2 _ _ _ _ _ (parseStep_title _ _ p.title ht htne)]
  rw [runLines_cons_ok2 _ _ _ _ _ (parseStep_empty _ _)]
  rw [runLines_cons_ok2 _ _ _ _ _ (parseStep_date _ _ p.date)]
  rw [runLines_cons_ok2 _ _ _ _ _ (parseStep_empty _ _)]
  rw [runLines_cons_ok2 _ _ _ _ _ (parseStep_authors _ _ (joinComma p.authors) ha hane)]
  rw [runLines_cons_ok2 _ _ _ _ _ (parseStep_empty _ _)]
  rw [runLines_cons_ok2 _ _ _ _ _ (parseStep_abstractHdr _ _)]
  rw [runLines_cons_ok2 _ _ _ _ _ (parseStep_empty _ _)]
  rw [runLines]
  dsimp only
  rw [runLines_append]
  rw [runLines_summary (splitChar '\n' p.summary) _ _ [] rfl hsum]
  dsimp only
  simp only [List.nil_append]
  rw [runLines_cons_ok2 _ _ _ _ _ (parseStep_empty _ _)]
  rw [runLines_cons_ok2 _ _ _ _ _ (parseStep_linksLine _ _ _ rfl)]
  rw [runLines_cons_ok2 _ _ _ _ _ (parseStep_empty _ _)]
  rw [runLines_cons_ok2 _ _ _ _ _ (parseStep_arxivLine _ _ p.url hup)]
  rw [runLines_cons_ok2 _ _ _ _ _ (parseStep_pdfLine _ _ p.pdf_url hpp)]
  rw [runLines_cons_ok2 _ _ _ _ _ (parseStep_empty _ _)]
  rw [runLines_cons_ok2 _ _ _ _ _ (parseStep_hrLine _ _)]
  rw [runLines_cons_ok2 _ _ _ _ _ (parseStep_empty _ _)]
  rw [runLines]
  rw [hstrip]
  rfl

theorem sections_parse : ∀ (ps : List FPaper) (i : Nat) (acc : List ParsedPaper)
    (cur : ParsedPaper), (∀ p ∈ ps, WBPaper p) →
    (match runLines (acc, cur) (paperSections i ps) with
     | .ok (out, fin) =>
       (.ok (if fin.isBlank then out else out ++ [fin]) : Except String (List ParsedPaper))
     | .error e => .error e) =
    .ok ((if cur.isBlank then acc else acc ++ [cur]) ++ ps.map expectedRecord) := by
  intro ps
  induction ps with
  | nil =>
    intro i acc cur _
    rw [paperSections, runLines]
    dsimp only
    simp
  | cons p ps ih =>
    intro i acc cur h
    rw [paperSections, runLines_append]
    rw [runLines_paperBlock i p acc cur (h p (List.mem_cons_self p ps))]
    dsimp only
    rw [ih (i + 1) _ (expectedRecord p) (fun q hq => h q (List.mem_cons_of_mem p hq))]
    rw [show (expectedRecord p).isBlank = false from rfl]
    simp

/-- Claim C1: parsing a digest rendered by get_cv_papers from well-behaved
results yields exactly one record per rendered paper, in order, whose number
is empty and whose title, date string, joined author list, whitespace-
normalized abstract, arXiv URL and PDF URL match the rendered originals. -/
theorem digest_round_trip (past_days max_results : Nat) (results : List ArxivResult)
    (lines : List PyStr) (h : get_cv_papers past_days max_results results = some lines)
    (hwb : ∀ r ∈ results, WellBehaved r) :
    ∃ r0, results.head? = some r0 ∧
      load_papers lines = .ok ((sortByDateDesc (filteredPapers results
        (subDays r0.published past_days) r0.published)).map expectedRecord) := by
  cases results with
  | nil => cases h
  | cons r0 rest =>
    refine ⟨r0, rfl, ?_⟩
    rw [get_cv_papers] at h
    dsimp only [List.head?_cons] at h
    injection h with hlines
    rw [← hlines]
    have hwb2 : ∀ p ∈ sortByDateDesc (filteredPapers (r0 :: rest)
        (subDays r0.published past_days) r0.published), WBPaper p := by
      intro p hp
      rw [sortByDateDesc] at hp
      rw [(List.perm_insertionSort _ _).mem_iff] at hp
      rw [filteredPapers, List.mem_map] at hp
      obtain ⟨r2, hr2, rfl⟩ := hp
      rw [List.mem_filter] at hr2
      exact hwb r2 hr2.1
    have hs := sections_parse (sortByDateDesc (filteredPapers (r0 :: rest)
      (subDays r0.published past_days) r0.published)) 1 [] {} hwb2
    rw [load_papers, runLines_append, header_inert _ _ _ _ _ [] {} rfl]
    dsimp only
    cases hrun : runLines ([], {}) (paperSections 1 (sortByDateDesc
        (filteredPapers (r0 :: rest) (subDays r0.published past_days) r0.published))) with
    | error e => rw [hrun] at hs; cases hs
    | ok st =>
      obtain ⟨out, fin⟩ := st
      rw [hrun] at hs
      dsimp only at hs ⊢
      simpa using hs

set_option maxRecDepth 4000

/-- Witness for claim C1, applying the round-trip theorem to the concrete
two-paper digest. -/
theorem digest_round_trip_witness :
    load_papers (fetchHeader 3 500 (subDays ⟨2024, 1, 10⟩ 3) ⟨2024, 1, 10⟩
        (filteredPapers [exResult1, exResult2] (subDays ⟨2024, 1, 10⟩ 3) ⟨2024, 1, 10⟩) ++
      paperSections 1 (sortByDateDesc (filteredPapers [exResult1, exResult2]
        (subDays ⟨2024, 1, 10⟩ 3) ⟨2024, 1, 10⟩))) =
      .ok ((sortByDateDesc (filteredPapers [exResult1, exResult2]
        (subDays ⟨2024, 1, 10⟩ 3) ⟨2024, 1, 10⟩)).map expectedRecord) := by
  have hwb : ∀ r ∈ [exResult1, exResult2], WellBehaved r := by
    intro r hr
    fin_cases hr <;> (unfold WellBehaved WBPaper Trimmed SummaryLineOK; decide)
  obtain ⟨r0, h0, hload⟩ :=
    digest_round_trip 3 500 [exResult1, exResult2] _ rfl hwb
  injection h0 with h0
  rw [← h0] at hload
  exact hload
